import Mathlib

/-!
# CANDi: session engine and decision engine

A shallow embedding of `src/server/server.js` (the authoritative session
engine) and `src/server/ai.js` (the Q-learning opponent), followed by the
properties proved about them.

Modelling conventions.

* JavaScript numbers are modelled by rationals (`ℚ`) for positions, learned
  values and rates, and by integers (`ℤ`) for the scoreboard and the countdown.
* `Math.sqrt (s) < d` with `0 ≤ d` is modelled by `s < d * d`, and a comparison
  of two square roots by the comparison of their arguments.
* `Math.random ()` is modelled by an explicit stream of draws in `[0, 1)`, and
  `Date.now ()` by an explicit argument.
* JavaScript objects used as mappings are association lists in insertion
  order: writing an existing key keeps its place, writing a new key appends.
* Every `emit` is appended to an output log carried by the world state.
-/

namespace CANDi

/-! ## Mappings -/

/-- Property read `obj[key]`: the value stored under the key, if any. -/
def objGet {κ α : Type} [DecidableEq κ] : List (κ × α) → κ → Option α
  | [], _ => none
  | (k, v) :: rest, key => if k = key then some v else objGet rest key

/-- Property write `obj[key] = value`: an existing key keeps its position, a
new key is appended. -/
def objSet {κ α : Type} [DecidableEq κ] : List (κ × α) → κ → α → List (κ × α)
  | [], key, value => [(key, value)]
  | (k, v) :: rest, key, value =>
    if k = key then (k, value) :: rest else (k, v) :: objSet rest key value

/-- The statement `delete obj[key]`. -/
def objDelete {κ α : Type} [DecidableEq κ] : List (κ × α) → κ → List (κ × α)
  | [], _ => []
  | (k, v) :: rest, key =>
    if k = key then objDelete rest key else (k, v) :: objDelete rest key

/-- The call `Object.values (obj)`. -/
def objValues {κ α : Type} (obj : List (κ × α)) : List α :=
  obj.map Prod.snd

/-! ## Randomness -/

/-- A result of `Math.random ()`: a number in `[0, 1)`. -/
abbrev Draw := {q : ℚ // 0 ≤ q ∧ q < 1}

/-- The results of the future calls of `Math.random ()`, in call order. -/
abbrev Rnd := Nat → Draw

/-- One call of `Math.random ()`: the draw and the remaining stream. -/
def Rnd.next (rnd : Rnd) : Draw × Rnd :=
  (rnd 0, fun n => rnd (n + 1))

/-! ## Geometry -/

/-- A pair of coordinates, the `x` and `y` fields of an avatar or a star. -/
structure Pos where
  x : ℚ
  y : ℚ
deriving DecidableEq

/-- The argument of `Math.sqrt` in a Euclidean distance:
`Math.pow (x1 - x2, 2) + Math.pow (y1 - y2, 2)`. -/
def distSq (x1 y1 x2 y2 : ℚ) : ℚ :=
  (x1 - x2) * (x1 - x2) + (y1 - y2) * (y1 - y2)

/-- The test `Math.sqrt (s) < d` for a non-negative bound `d`. -/
def sqrtLt (s d : ℚ) : Bool :=
  decide (s < d * d)

/-! ## Decision engine (`ai.js`) -/

/-- The movement actions, `this.actions`. -/
inductive Action
  | up
  | down
  | left
  | right
  | jump
deriving DecidableEq

/-- The list `this.actions = ['up', 'down', 'left', 'right', 'jump']`. -/
def actions : List Action :=
  [Action.up, Action.down, Action.left, Action.right, Action.jump]

/-- The two roles, the strings `'runner'` and `'chaser'`. -/
inductive Role
  | runner
  | chaser
deriving DecidableEq

/-- The string of a role. -/
def Role.name : Role → String
  | Role.runner => "runner"
  | Role.chaser => "chaser"

/-- The movement-pattern labels pushed by `analyzePlayerPattern`. -/
inductive Pattern
  | moving_left
  | moving_right
  | moving_up
  | moving_down
  | horizontal
  | vertical
  | random
deriving DecidableEq

/-- The inner object of the value table: action ↦ learned value. -/
abbrev ActionValues := List (Action × ℚ)

/-- The value table `this.qTable`: state label ↦ action ↦ learned value. The
table is a plain object and the model reads its own entries only. Every label
built by `getState` starts with `runner_` or `chaser_`, so none of them names a
property that a plain object inherits (`constructor`, `toString`, `valueOf`,
`__proto__`); for such a name `this.qTable[state]` is truthy without an own
entry, and the model does not cover lookups of those names. -/
abbrev QTable := List (String × ActionValues)

/-- An entry of `this.lastPlayerPositions`. -/
structure Sample where
  x : ℚ
  y : ℚ
  timestamp : Nat
deriving DecidableEq

/-- The fields of an `AI` instance. `lastState` and `lastAction` are
`undefined` (`none`) until the first `makeMove`; the labels stored there are
never empty, so their truthiness is their presence. -/
structure AI where
  qTable : QTable
  episodes : ℚ
  epsilon : ℚ
  learningRate : ℚ
  discountFactor : ℚ
  playerPatterns : List Pattern
  lastPlayerPositions : List Sample
  lastState : Option String
  lastAction : Option Action
deriving DecidableEq

/-- The constant `this.maxPatternHistory`. -/
def maxPatternHistory : Nat := 10

/-- The parsed content of `data.json`: each field may be missing. -/
structure Data where
  q_table : Option QTable
  episodes : Option ℚ
  epsilon : Option ℚ
  learning_rate : Option ℚ
  discount_factor : Option ℚ
deriving DecidableEq

/-- The file `data.json`: missing, unreadable (reading or parsing throws), or
holding a record. -/
inductive DataFile
  | absent
  | malformed
  | json (data : Data)
deriving DecidableEq

/-- The expression `value || fallback` on an optional number: `undefined` and
`0` are falsy. -/
def orNum (value : Option ℚ) (fallback : ℚ) : ℚ :=
  match value with
  | some v => if v = 0 then fallback else v
  | none => fallback

/-- The method `saveMemory`: the record written to `data.json`. -/
def saveMemory (ai : AI) : DataFile :=
  DataFile.json
    { q_table := some ai.qTable
      episodes := some ai.episodes
      epsilon := some ai.epsilon
      learning_rate := some ai.learningRate
      discount_factor := some ai.discountFactor }

/-- The five memory fields set by the default branches of `loadMemory`. -/
def defaultMemory (ai : AI) : AI :=
  { ai with qTable := [], episodes := 0, epsilon := 3 / 10, learningRate := 1 / 10,
            discountFactor := 9 / 10 }

/-- The method `loadMemory`: fills the five memory fields from the file and
returns the file afterwards (written when it was absent). -/
def loadMemory (ai : AI) (file : DataFile) : AI × DataFile :=
  match file with
  | DataFile.json data =>
    ({ ai with qTable := data.q_table.getD []
               episodes := orNum data.episodes 0
               epsilon := orNum data.epsilon (3 / 10)
               learningRate := orNum data.learning_rate (1 / 10)
               discountFactor := orNum data.discount_factor (9 / 10) }, file)
  | DataFile.absent =>
    let ai1 := defaultMemory ai
    (ai1, saveMemory ai1)
  | DataFile.malformed => (defaultMemory ai, file)

/-- The constructor `new AI ()`. -/
def AI.new (file : DataFile) : AI × DataFile :=
  loadMemory
    { qTable := [], episodes := 0, epsilon := 0, learningRate := 0, discountFactor := 0
      playerPatterns := [], lastPlayerPositions := [], lastState := none, lastAction := none }
    file

/-- The target handed to `makeMove`: its coordinates, and whether it is the
very object passed as `player` (what `target !== player` tests). -/
structure Target where
  x : ℚ
  y : ℚ
  isPlayer : Bool
deriving DecidableEq

/-- The method `getState`: the discrete label of a situation. -/
def getState (aiPos : Pos) (target : Target) (role : Role) (player : Option Pos) : String :=
  let dx := target.x - aiPos.x
  let dy := target.y - aiPos.y
  let direction :=
    if |dx| > |dy| then (if dx > 0 then "target_right" else "target_left")
    else (if dy > 0 then "target_down" else "target_up")
  let distanceCategory :=
    if sqrtLt (dx * dx + dy * dy) 50 then "close"
    else if sqrtLt (dx * dx + dy * dy) 150 then "medium"
    else "far"
  let state := role.name ++ "_" ++ direction ++ "_" ++ distanceCategory
  match player with
  | some p =>
    if role = Role.runner ∧ sqrtLt (distSq aiPos.x aiPos.y p.x p.y) 100 then state ++ "_danger"
    else state
  | none => state

/-- The row `{up: 0, down: 0, left: 0, right: 0, jump: 0}` created by
`getQValue` for a state it has not seen. -/
def freshRow : ActionValues :=
  actions.foldl (fun row a => objSet row a 0) []

/-- The method `getQValue`: creates the row of an unseen state, then reads
`this.qTable[state][action] || 0`. -/
def getQValue (ai : AI) (state : String) (action : Action) : ℚ × AI :=
  let ai1 :=
    match objGet ai.qTable state with
    | some _ => ai
    | none => { ai with qTable := objSet ai.qTable state freshRow }
  (orNum ((objGet ai1.qTable state).bind (fun row => objGet row action)) 0, ai1)

/-- The index `Math.floor (Math.random () * this.actions.length)`. -/
def randomIndex (r : Draw) : Nat :=
  (Int.floor (r.val * 5)).toNat

/-- The element `this.actions[Math.floor (Math.random () * 5)]`; the index is
below 5 for every draw, so the fallback is never taken. -/
def randomAction (r : Draw) : Action :=
  (actions.get? (randomIndex r)).getD Action.jump

/-- The `for (const action of this.actions)` loop of `chooseAction`. -/
def bestLoop (state : String) : List Action → Action → ℚ → AI → Action × AI
  | [], bestAction, _, ai => (bestAction, ai)
  | action :: rest, bestAction, bestValue, ai =>
    let (value, ai1) := getQValue ai state action
    if value > bestValue then bestLoop state rest action value ai1
    else bestLoop state rest bestAction bestValue ai1

/-- The method `chooseAction`: epsilon-greedy choice. The guard
`!this.qTable[state]` is the absence of an own entry, which is what it tests
for every label built by `getState` (see `QTable`). -/
def chooseAction (ai : AI) (state : String) (rnd : Rnd) : Action × AI × Rnd :=
  let (r1, rnd1) := rnd.next
  if r1.val < ai.epsilon then
    let (r2, rnd2) := rnd1.next
    (randomAction r2, ai, rnd2)
  else
    match objGet ai.qTable state with
    | none =>
      let (r2, rnd2) := rnd1.next
      (randomAction r2, ai, rnd2)
    | some _ =>
      let (bestValue, ai1) := getQValue ai state Action.up
      let (bestAction, ai2) := bestLoop state actions Action.up bestValue ai1
      (bestAction, ai2, rnd1)

/-- The `for (const nextAction of this.actions)` loop of `updateQValue`. -/
def maxLoop (nextState : String) : List Action → ℚ → AI → ℚ × AI
  | [], maxNextQ, ai => (maxNextQ, ai)
  | nextAction :: rest, maxNextQ, ai =>
    let (value, ai1) := getQValue ai nextState nextAction
    maxLoop nextState rest (max maxNextQ value) ai1

/-- The method `updateQValue`: the Q-learning update. -/
def updateQValue (ai : AI) (state : String) (action : Action) (reward : ℚ)
    (nextState : String) : AI :=
  let (currentQ, ai1) := getQValue ai state action
  let (maxNextQ, ai2) :=
    if nextState ≠ "" ∧ (objGet ai1.qTable nextState).isSome then
      maxLoop nextState actions 0 ai1
    else (0, ai1)
  let newQ := currentQ + ai2.learningRate * (reward + ai2.discountFactor * maxNextQ - currentQ)
  let row := (objGet ai2.qTable state).getD []
  { ai2 with qTable := objSet ai2.qTable state (objSet row action newQ) }

/-- The method `actionToMovement`; `target` and `role` are not used by it. -/
def actionToMovement (action : Action) (aiPos : Pos) : Pos :=
  match action with
  | Action.left => { x := max 0 (aiPos.x - 3), y := aiPos.y }
  | Action.right => { x := min 800 (aiPos.x + 3), y := aiPos.y }
  | Action.up => { x := aiPos.x, y := max 0 (aiPos.y - 3) }
  | Action.down => { x := aiPos.x, y := min 600 (aiPos.y + 3) }
  | Action.jump => { x := aiPos.x, y := max 0 (aiPos.y - 15) }

/-- The method `calculateReward`: the shaping reward of a move. -/
def calculateReward (aiPos : Pos) (target : Target) (role : Role) (player : Option Pos)
    (newPos : Pos) : ℚ :=
  let oldDistance := distSq aiPos.x aiPos.y target.x target.y
  let newDistance := distSq newPos.x newPos.y target.x target.y
  let r1 : ℚ :=
    match role with
    | Role.chaser => if newDistance < oldDistance then 1 else -(1 / 2)
    | Role.runner =>
      let a : ℚ :=
        if ¬ (player.isSome ∧ target.isPlayer = true) ∧ newDistance < oldDistance then 1 else 0
      let b : ℚ :=
        match player with
        | some p =>
          if distSq newPos.x newPos.y p.x p.y > distSq aiPos.x aiPos.y p.x p.y then 1 / 2
          else -1
        | none => 0
      a + b
  let r2 : ℚ :=
    if newPos.x ≤ 0 ∨ newPos.x ≥ 800 ∨ newPos.y ≤ 0 ∨ newPos.y ≥ 600 then -2 else 0
  r1 + r2

/-- The method `analyzePlayerPattern`: classifies the last three samples and
pushes the label, keeping at most 20 labels. -/
def analyzePlayerPattern (ai : AI) : AI :=
  if ai.lastPlayerPositions.length < 3 then ai
  else
    match ai.lastPlayerPositions.drop (ai.lastPlayerPositions.length - 3) with
    | [p0, p1, p2] =>
      let dx1 := p1.x - p0.x
      let dy1 := p1.y - p0.y
      let dx2 := p2.x - p1.x
      let dy2 := p2.y - p1.y
      let pattern :=
        if |dx1| > |dy1| ∧ |dx2| > |dy2| then
          (if dx1 > 0 ∧ dx2 > 0 then Pattern.moving_right
           else if dx1 < 0 ∧ dx2 < 0 then Pattern.moving_left
           else Pattern.horizontal)
        else if |dy1| > |dx1| ∧ |dy2| > |dx2| then
          (if dy1 > 0 ∧ dy2 > 0 then Pattern.moving_down
           else if dy1 < 0 ∧ dy2 < 0 then Pattern.moving_up
           else Pattern.vertical)
        else Pattern.random
      let pushed := ai.playerPatterns ++ [pattern]
      { ai with playerPatterns := if pushed.length > 20 then pushed.tail else pushed }
    | _ => ai

/-- The method `recordPlayerPattern`: pushes a sample, keeping at most
`maxPatternHistory` of them, and analyses once three are present. -/
def recordPlayerPattern (ai : AI) (player : Pos) (now : Nat) : AI :=
  let pushed := ai.lastPlayerPositions ++ [{ x := player.x, y := player.y, timestamp := now }]
  let kept := if pushed.length > maxPatternHistory then pushed.tail else pushed
  let ai1 := { ai with lastPlayerPositions := kept }
  if kept.length ≥ 3 then analyzePlayerPattern ai1 else ai1

/-- The method `makeMove`: one decision of the engine. -/
def makeMove (ai : AI) (aiPos : Pos) (target : Target) (role : Role) (player : Option Pos)
    (rnd : Rnd) (now : Nat) : Pos × AI × Rnd :=
  let state := getState aiPos target role player
  let (action, ai1, rnd1) := chooseAction ai state rnd
  let ai2 := { ai1 with lastState := some state, lastAction := some action }
  let movement := actionToMovement action aiPos
  let ai3 :=
    match player with
    | some p => recordPlayerPattern ai2 p now
    | none => ai2
  let reward := calculateReward aiPos target role player movement
  let ai4 :=
    match ai3.lastState, ai3.lastAction with
    | some s, some a => updateQValue ai3 s a reward state
    | _, _ => ai3
  (movement, ai4, rnd1)

/-- The method `giveReward`: an external reward for the last recorded pair. -/
def giveReward (ai : AI) (reward : ℚ) : AI :=
  match ai.lastState, ai.lastAction with
  | some s, some a =>
    let (currentQ, ai1) := getQValue ai s a
    let newQ := currentQ + ai1.learningRate * reward
    let row := (objGet ai1.qTable s).getD []
    { ai1 with qTable := objSet ai1.qTable s (objSet row a newQ) }
  | _, _ => ai

/-- The method `decayEpsilon`. -/
def decayEpsilon (ai : AI) : AI :=
  { ai with epsilon := max (1 / 10) (ai.epsilon * (995 / 1000)), episodes := ai.episodes + 1 }

/-! ## Session state (`server.js`) -/

/-- The identity of a connection, `socket.id`. Socket identities are opaque
tokens, never array-index keys, so `Object.values (gameState.players)`
enumerates the avatars in insertion order. -/
abbrev ConnId := Nat

/-- A player avatar, an entry of `gameState.players`. The velocity fields
exist only once a `playerMove` supplied them. -/
structure Avatar where
  x : ℚ
  y : ℚ
  width : ℚ
  height : ℚ
  onGround : Bool
  velocityX : Option ℚ
  velocityY : Option ℚ
deriving DecidableEq

/-- The payload of `playerMove`: every field may be present or missing. -/
structure MoveData where
  x : Option ℚ
  y : Option ℚ
  width : Option ℚ
  height : Option ℚ
  onGround : Option Bool
  velocityX : Option ℚ
  velocityY : Option ℚ
deriving DecidableEq

/-- The spread `{ ...avatar, ...moveData }`: present fields override. -/
def Avatar.merge (a : Avatar) (m : MoveData) : Avatar :=
  { x := m.x.getD a.x
    y := m.y.getD a.y
    width := m.width.getD a.width
    height := m.height.getD a.height
    onGround := m.onGround.getD a.onGround
    velocityX := m.velocityX.orElse (fun _ => a.velocityX)
    velocityY := m.velocityY.orElse (fun _ => a.velocityY) }

/-- The coordinates of a player avatar. -/
def Avatar.pos (a : Avatar) : Pos :=
  { x := a.x, y := a.y }

/-- The AI avatar, `gameState.ai`. -/
structure AiAvatar where
  x : ℚ
  y : ℚ
  width : ℚ
  height : ℚ
deriving DecidableEq

/-- The coordinates of the AI avatar. -/
def AiAvatar.pos (a : AiAvatar) : Pos :=
  { x := a.x, y := a.y }

/-- A collectible star. -/
structure Star where
  id : String
  x : ℚ
  y : ℚ
  collected : Bool
deriving DecidableEq

/-- The scoreboard `gameState.scores`. -/
structure Scores where
  player : ℤ
  ai : ℤ
deriving DecidableEq

/-- The object `gameState`. -/
structure GameState where
  players : List (ConnId × Avatar)
  ai : Option AiAvatar
  stars : List Star
  scores : Scores
  gameTimer : ℤ
  gameActive : Bool
  playerRole : Role
  aiRole : Role
deriving DecidableEq

/-- The winner named by a `gameEnd` notification. -/
inductive Winner
  | player
  | ai
deriving DecidableEq

/-- The messages sent by the server: `io.emit` broadcasts and the two
`socket.emit` messages of a connection. -/
inductive Emit
  | gameState (snapshot : GameState)
  | gameStateTo (id : ConnId) (snapshot : GameState)
  | playerId (id : ConnId)
  | roleSwitch (playerRole aiRole : Role)
  | gameEnd (winner : Winner) (scores : Scores)
deriving DecidableEq

/-- The module state of `server.js`: the session state, whether the countdown
interval `gameInterval` is armed, the decision engine, its file, and the
messages emitted so far (oldest first). -/
structure World where
  gameState : GameState
  gameInterval : Bool
  ai : AI
  dataFile : DataFile
  out : List Emit
deriving DecidableEq

/-- The module state after loading `server.js`. -/
def World.init (file : DataFile) : World :=
  { gameState :=
      { players := [], ai := none, stars := [], scores := { player := 0, ai := 0 }
        gameTimer := 30, gameActive := false
        playerRole := Role.runner, aiRole := Role.chaser }
    gameInterval := false
    ai := (AI.new file).1
    dataFile := (AI.new file).2
    out := [] }

/-- The call `io.emit` or `socket.emit`. -/
def World.emit (w : World) (e : Emit) : World :=
  { w with out := w.out ++ [e] }

/-- The `for` loop of `generateStars`, from index `i`, for `n` more stars. -/
def generateStarsLoop : Nat → Nat → Rnd → List Star × Rnd
  | 0, _, rnd => ([], rnd)
  | n + 1, i, rnd =>
    let (rx, rnd1) := rnd.next
    let (ry, rnd2) := rnd1.next
    let star : Star :=
      { id := "star_" ++ toString i
        x := rx.val * (800 - 100) + 50
        y := ry.val * (600 - 100) + 50
        collected := false }
    let (rest, rnd3) := generateStarsLoop n (i + 1) rnd2
    (star :: rest, rnd3)

/-- The function `generateStars`; every call in the source uses the default
count 3. -/
def generateStars (count : Nat) (rnd : Rnd) : List Star × Rnd :=
  generateStarsLoop count 0 rnd

/-- The function `resetGame`. -/
def resetGame (w : World) (rnd : Rnd) : World × Rnd :=
  let (stars, rnd1) := generateStars 3 rnd
  ({ w with
      gameState :=
        { w.gameState with
          scores := { player := 0, ai := 0 }
          gameTimer := 30
          gameActive := true
          playerRole := Role.runner
          aiRole := Role.chaser
          stars := stars
          ai := some { x := 100, y := 500, width := 30, height := 30 } } }, rnd1)

/-- The function `startGameTimer`: clears a previous interval and arms one. -/
def startGameTimer (w : World) : World :=
  { w with gameInterval := true }

/-- The condition of the first `if` of `checkGameEnd`. -/
def roleSwitchDue (g : GameState) : Bool :=
  (g.scores.player == 5 || g.scores.ai == 5) && g.playerRole == Role.runner

/-- The condition of the second `if` of `checkGameEnd`. -/
def gameEndDue (g : GameState) : Bool :=
  decide (g.scores.player ≥ 10) || decide (g.scores.ai ≥ 10)

/-- The function `checkGameEnd`. -/
def checkGameEnd (w : World) (rnd : Rnd) : World × Rnd :=
  let (w1, rnd1) :=
    if roleSwitchDue w.gameState then
      let (stars, rnd1) := generateStars 3 rnd
      let w1 : World :=
        { w with
          gameState :=
            { w.gameState with
              playerRole := Role.chaser
              aiRole := Role.runner
              gameTimer := 30
              stars := stars } }
      (w1.emit (Emit.roleSwitch w1.gameState.playerRole w1.gameState.aiRole), rnd1)
    else (w, rnd)
  if gameEndDue w1.gameState then
    let w2 : World := { w1 with gameState := { w1.gameState with gameActive := false },
                                gameInterval := false }
    let winner := if w2.gameState.scores.player ≥ 10 then Winner.player else Winner.ai
    let w3 := w2.emit (Emit.gameEnd winner w2.gameState.scores)
    ({ w3 with dataFile := saveMemory w3.ai }, rnd1)
  else (w1, rnd1)

/-- The callback of the countdown interval armed by `startGameTimer`. -/
def timerCallback (w : World) (rnd : Rnd) : World × Rnd :=
  if w.gameState.gameActive = true ∧ w.gameState.gameTimer > 0 then
    let w1 : World :=
      { w with gameState := { w.gameState with gameTimer := w.gameState.gameTimer - 1 } }
    let (w2, rnd2) :=
      if w1.gameState.gameTimer ≤ 0 then
        checkGameEnd
          { w1 with
            gameState :=
              { w1.gameState with
                scores := { player := w1.gameState.scores.player + 1
                            ai := w1.gameState.scores.ai + 1 } } }
          rnd
      else (w1, rnd)
    (w2.emit (Emit.gameState w2.gameState), rnd2)
  else (w, rnd)

/-- The avatar given to a new connection. -/
def spawnAvatar : Avatar :=
  { x := 700, y := 500, width := 30, height := 30, onGround := false
    velocityX := none, velocityY := none }

/-- The `connection` handler, up to the registration of the listeners. -/
def onConnection (w : World) (id : ConnId) (rnd : Rnd) : World × Rnd :=
  let w1 : World :=
    { w with
      gameState := { w.gameState with players := objSet w.gameState.players id spawnAvatar } }
  let (w2, rnd2) :=
    if w1.gameState.gameActive = false then
      let (w2, rnd2) := resetGame w1 rnd
      (startGameTimer w2, rnd2)
    else (w1, rnd)
  ((w2.emit (Emit.gameStateTo id w2.gameState)).emit (Emit.playerId id), rnd2)

/-- The test of the collection loops: the star is not collected and lies
within 30 of the position on both axes. -/
def starHit (pos : Pos) (star : Star) : Bool :=
  !star.collected && decide (|pos.x - star.x| < 30) && decide (|pos.y - star.y| < 30)

/-- The assignment `star.collected = true` on the element of index `i`. -/
def markCollected : List Star → Nat → List Star
  | [], _ => []
  | star :: rest, 0 => { star with collected := true } :: rest
  | star :: rest, i + 1 => star :: markCollected rest i

/-- The result of a collection loop: the array that `forEach` iterated,
whether `gameState.stars` is still that array, the world and the random
stream. -/
structure Collected where
  arr : List Star
  live : Bool
  world : World
  rnd : Rnd

/-- The `gameState.stars.forEach` loop shared by the `playerMove` handler and
the AI update loop, on the elements from index `i` on. `forEach` iterates the
array it was called on: when `checkGameEnd` replaces `gameState.stars`, the
loop goes on over the old array and its marks no longer reach the session
state (`live` becomes false). `pos` is the position of the collecting avatar,
which nothing in the loop body writes, and `award` the scoring statements
between the mark and the call of `checkGameEnd`. -/
def collectLoop (pos : Pos) (award : World → World) :
    List Star → Nat → Bool → World → Rnd → Collected
  | [], _, live, w, rnd => { arr := [], live := live, world := w, rnd := rnd }
  | star :: rest, i, live, w, rnd =>
    if starHit pos star then
      let w1 : World :=
        if live then
          { w with gameState := { w.gameState with stars := markCollected w.gameState.stars i } }
        else w
      let w2 := award w1
      let due := roleSwitchDue w2.gameState
      let (w3, rnd3) := checkGameEnd w2 rnd
      let r := collectLoop pos award rest (i + 1) (live && !due) w3 rnd3
      { r with arr := { star with collected := true } :: r.arr }
    else
      let r := collectLoop pos award rest (i + 1) live w rnd
      { r with arr := star :: r.arr }

/-- The statement `gameState.scores.player++`. -/
def awardPlayer (w : World) : World :=
  { w with
    gameState :=
      { w.gameState with
        scores := { w.gameState.scores with player := w.gameState.scores.player + 1 } } }

/-- The statements `gameState.scores.ai++; ai.giveReward (10)`. -/
def awardAi (w : World) : World :=
  { w with
    gameState :=
      { w.gameState with scores := { w.gameState.scores with ai := w.gameState.scores.ai + 1 } }
    ai := giveReward w.ai 10 }

/-- The star collection of the `playerMove` handler (the `forEach` call). -/
def playerCollect (w : World) (pos : Pos) (rnd : Rnd) : Collected :=
  collectLoop pos awardPlayer w.gameState.stars 0 true w rnd

/-- The star collection of the AI update loop (the `forEach` call). -/
def aiCollect (w : World) (pos : Pos) (rnd : Rnd) : Collected :=
  collectLoop pos awardAi w.gameState.stars 0 true w rnd

/-- The tagging check of the `playerMove` handler. -/
def playerTag (w : World) (p : Avatar) (rnd : Rnd) : World × Rnd :=
  match w.gameState.ai with
  | some a =>
    if w.gameState.playerRole = Role.chaser then
      if sqrtLt (distSq p.x p.y a.x a.y) 40 then
        checkGameEnd
          { w with
            gameState :=
              { w.gameState with
                scores := { w.gameState.scores with player := w.gameState.scores.player + 100 } } }
          rnd
      else (w, rnd)
    else (w, rnd)
  | none => (w, rnd)

/-- The `playerMove` listener of the connection `id`. -/
def onPlayerMove (w : World) (id : ConnId) (moveData : MoveData) (rnd : Rnd) : World × Rnd :=
  match objGet w.gameState.players id with
  | none => (w, rnd)
  | some avatar =>
    let p := avatar.merge moveData
    let w1 : World :=
      { w with gameState := { w.gameState with players := objSet w.gameState.players id p } }
    let (w2, rnd2) :=
      if w1.gameState.playerRole = Role.runner then
        let r := playerCollect w1 p.pos rnd
        (r.world, r.rnd)
      else (w1, rnd)
    let (w3, rnd3) := playerTag w2 p rnd2
    (w3.emit (Emit.gameState w3.gameState), rnd3)

/-- The `disconnect` listener of the connection `id`. -/
def onDisconnect (w : World) (id : ConnId) : World :=
  { w with gameState := { w.gameState with players := objDelete w.gameState.players id } }

/-- The `reduce` callback of the target selection: the star strictly closer
to the AI avatar replaces the closest one so far. -/
def closerStar (a : AiAvatar) (closest star : Star) : Star :=
  if distSq a.x a.y star.x star.y < distSq a.x a.y closest.x closest.y then star else closest

/-- The target selection of the AI update loop. -/
def selectTarget (g : GameState) (a : AiAvatar) (player : Avatar) : Target :=
  if g.aiRole = Role.chaser then { x := player.x, y := player.y, isPlayer := true }
  else
    match g.stars.filter (fun star => !star.collected) with
    | first :: rest =>
      let star := rest.foldl (closerStar a) first
      { x := star.x, y := star.y, isPlayer := false }
    | [] => { x := player.x, y := player.y, isPlayer := true }

/-- The tagging check of the AI update loop. -/
def aiTag (w : World) (player : Avatar) (rnd : Rnd) : World × Rnd :=
  match w.gameState.ai with
  | some a =>
    if w.gameState.aiRole = Role.chaser then
      if sqrtLt (distSq a.x a.y player.x player.y) 40 then
        checkGameEnd
          { w with
            gameState :=
              { w.gameState with
                scores := { w.gameState.scores with ai := w.gameState.scores.ai + 100 } }
            ai := giveReward w.ai 100 }
          rnd
      else (w, rnd)
    else (w, rnd)
  | none => (w, rnd)

/-- The callback of the AI update loop (every 100 ms). -/
def aiTick (w : World) (rnd : Rnd) (now : Nat) : World × Rnd :=
  match w.gameState.gameActive, w.gameState.ai with
  | true, some a =>
    match objValues w.gameState.players with
    | [] => (w, rnd)
    | player :: _ =>
      let target := selectTarget w.gameState a player
      let (aiMove, ai1, rnd1) :=
        makeMove w.ai a.pos target w.gameState.aiRole (some player.pos) rnd now
      let a1 : AiAvatar := { a with x := aiMove.x, y := aiMove.y }
      let w1 : World := { w with gameState := { w.gameState with ai := some a1 }, ai := ai1 }
      let (w2, rnd2) :=
        if w1.gameState.aiRole = Role.runner then
          let r := aiCollect w1 a1.pos rnd1
          (r.world, r.rnd)
        else (w1, rnd1)
      aiTag w2 player rnd2
  | _, _ => (w, rnd)

/-- The messages a client can send on its socket. The handler registers
listeners for `playerMove` and `disconnect` only; `restartGame` is emitted by
the client (`restartGame ()` in `game.js`) and has no listener. -/
inductive ClientMessage
  | playerMove (moveData : MoveData)
  | disconnect
  | restartGame
deriving DecidableEq

/-- Dispatch of a client message to the listeners registered by the
`connection` handler; a message without a listener is dropped. -/
def onMessage (w : World) (id : ConnId) (msg : ClientMessage) (rnd : Rnd) : World × Rnd :=
  match msg with
  | ClientMessage.playerMove moveData => onPlayerMove w id moveData rnd
  | ClientMessage.disconnect => (onDisconnect w id, rnd)
  | ClientMessage.restartGame => (w, rnd)

/-- The events of the server: a new connection, a message of a client, a
firing of the countdown interval, a firing of the AI interval. Each event
carries the results of the `Math.random ()` calls made while it is handled. -/
inductive Event
  | connect (id : ConnId) (rnd : Rnd)
  | message (id : ConnId) (msg : ClientMessage) (rnd : Rnd)
  | timerTick (rnd : Rnd)
  | aiTick (rnd : Rnd) (now : Nat)

/-- One event. The countdown callback runs only while its interval is armed. -/
def step (w : World) : Event → World
  | Event.connect id rnd => (onConnection w id rnd).1
  | Event.message id msg rnd => (onMessage w id msg rnd).1
  | Event.timerTick rnd => if w.gameInterval then (timerCallback w rnd).1 else w
  | Event.aiTick rnd now => (aiTick w rnd now).1

/-- A sequence of events, oldest first. -/
def run (w : World) (events : List Event) : World :=
  events.foldl step w

/-- The states reachable from the initial module state. -/
inductive Reachable : World → Prop
  | init (file : DataFile) : Reachable (World.init file)
  | step {w : World} (e : Event) : Reachable w → Reachable (step w e)

/-- How many `roleSwitch` notifications a log holds. -/
def countRoleSwitch (out : List Emit) : Nat :=
  out.countP (fun e => match e with
    | Emit.roleSwitch _ _ => true
    | _ => false)

/-- How many `gameEnd` notifications a log holds. -/
def countGameEnd (out : List Emit) : Nat :=
  out.countP (fun e => match e with
    | Emit.gameEnd _ _ => true
    | _ => false)

/-! ## Definitions used by the statements -/

/-- The notifications appended by one call of `checkGameEnd` in a session
state: the role switch when it is due, then the match end when it is due. -/
def checkGameEndEmits (g : GameState) : List Emit :=
  (if roleSwitchDue g then [Emit.roleSwitch Role.chaser Role.runner] else []) ++
  (if gameEndDue g then
    [Emit.gameEnd (if g.scores.player ≥ 10 then Winner.player else Winner.ai) g.scores]
   else [])

/-- The role assignment is an exclusive pairing. -/
def rolesOpposite (g : GameState) : Prop :=
  (g.playerRole = Role.runner ∧ g.aiRole = Role.chaser) ∨
  (g.playerRole = Role.chaser ∧ g.aiRole = Role.runner)

/-- The part of a world the role rules are about: the two roles and the
number of `roleSwitch` notifications emitted so far. -/
def roleView (w : World) : Role × Role × Nat :=
  (w.gameState.playerRole, w.gameState.aiRole, countRoleSwitch w.out)

/-- Either nothing changed, or the player was runner and one role switch
happened. -/
def Switched (v v2 : Role × Role × Nat) : Prop :=
  v2 = v ∨ (v.1 = Role.runner ∧ v2 = (Role.chaser, Role.runner, v.2.2 + 1))

/-- Whether an event performs `resetGame`: a connection while no session is
active. -/
def resets (w : World) : Event → Bool
  | Event.connect _ _ => !w.gameState.gameActive
  | _ => false

/-- Whether no event of the sequence, played from `w`, performs a reset. -/
def noReset : World → List Event → Bool
  | _, [] => true
  | w, e :: es => !resets w e && noReset (step w e) es

/-- A stream of draws that are all 0. -/
def zeroDraws : Rnd := fun _ => ⟨0, by norm_num⟩

/-- A `playerMove` payload that reports a position only. -/
def moveTo (x y : ℚ) : MoveData :=
  { x := some x, y := some y, width := none, height := none, onGround := none
    velocityX := none, velocityY := none }

/-- A short match: a player connects (reset; with all draws 0 the three stars
lie at (50, 50)), reports the position (100, 500) of the AI avatar, and the
next AI tick moves the chasing AI to (100, 497) and tags the player. -/
def tagMatch : List Event :=
  [Event.connect 0 zeroDraws,
   Event.message 0 (ClientMessage.playerMove (moveTo 100 500)) zeroDraws,
   Event.aiTick zeroDraws 0]

/-- The world at the end of `tagMatch`: the match has ended 0 : 100. -/
def endedWorld : World :=
  run (World.init DataFile.absent) tagMatch

/-- A `playerMove` of the connected player that reports the position (50, 50)
of the three stars of `tagMatch`. -/
def starPickup : Event :=
  Event.message 0 (ClientMessage.playerMove (moveTo 50 50)) zeroDraws

/-- A session state with the scores 10 : 11. -/
def aiAheadWorld : World :=
  { World.init DataFile.absent with
    gameState :=
      { (World.init DataFile.absent).gameState with scores := { player := 10, ai := 11 } } }

/-- A session state in which the player, connection 0 at (700, 500), is the
chaser, the AI avatar stands at (100, 500) and the scores are 0 : 0. -/
def chaserWorld : World :=
  { World.init DataFile.absent with
    gameState :=
      { players := [(0, spawnAvatar)]
        ai := some { x := 100, y := 500, width := 30, height := 30 }
        stars := []
        scores := { player := 0, ai := 0 }
        gameTimer := 30
        gameActive := true
        playerRole := Role.chaser
        aiRole := Role.runner } }

/-- Whether a star lies within 30 of a position on both axes. -/
def within30 (pos : Pos) (star : Star) : Bool :=
  decide (|pos.x - star.x| < 30) && decide (|pos.y - star.y| < 30)

/-- The session state at the moment the countdown callback calls
`checkGameEnd`: the timer has reached 0 and both sides got one point. -/
def timeUp (w : World) : World :=
  { w with
    gameState :=
      { w.gameState with
        gameTimer := 0
        scores := { player := w.gameState.scores.player + 1
                    ai := w.gameState.scores.ai + 1 } } }

/-- An active session with one second left on the countdown. -/
def lastSecondWorld : World :=
  { chaserWorld with gameState := { chaserWorld.gameState with gameTimer := 1 } }

/-- The learned value of a (state, action) pair, an absent entry reading as
0: the expression `this.qTable[state][action] || 0` without the row creation
of `getQValue`. -/
def qRead (t : QTable) (state : String) (action : Action) : ℚ :=
  orNum ((objGet t state).bind (fun row => objGet row action)) 0

/-- A stream of draws that are all 1/2. -/
def halfDraws : Rnd := fun _ => ⟨1 / 2, by norm_num⟩

/-- A freshly constructed engine: `new AI ()` with no data file. -/
def freshEngine : AI :=
  (AI.new DataFile.absent).1

/-- The fresh engine with its exploration rate forced to 0. -/
def greedyEngine : AI :=
  { freshEngine with epsilon := 0 }

/-- An engine with exploration rate 0 that has learned, for the state `"s"`,
the value 1 for `down` and for `right` and nothing for the other actions. -/
def tiedEngine : AI :=
  { freshEngine with
    epsilon := 0
    qTable := [("s", [(Action.up, 0), (Action.down, 1), (Action.left, 0),
                      (Action.right, 1), (Action.jump, 0)])] }

/-- The choice made by the loop of `chooseAction` for a value function `f`:
scanning the list, an action replaces the best one so far only when its value
is strictly greater. -/
def firstMax (f : Action → ℚ) : List Action → Action → ℚ → Action
  | [], bestAction, _ => bestAction
  | action :: rest, bestAction, bestValue =>
    if f action > bestValue then firstMax f rest action (f action)
    else firstMax f rest bestAction bestValue

/-- A stream of draws that are all 1/4: below the default exploration rate
3/10, and selecting the action of index 1, `down`. -/
def quarterDraws : Rnd := fun _ => ⟨1 / 4, by norm_num⟩

/-- The engine after a first `makeMove` on the fresh engine: the chasing AI at
(100, 500), the player at (700, 500), draws all 1/4. The label is
`chaser_target_right_far` and the action `down`. -/
def afterFirstMove : Pos × AI × Rnd :=
  makeMove freshEngine { x := 100, y := 500 } { x := 700, y := 500, isPlayer := true }
    Role.chaser (some { x := 700, y := 500 }) quarterDraws 0

/-- A second `makeMove`: the AI now at (100, 503), the player at (100, 600),
draws all 1/4. The label is `chaser_target_down_medium`, the action `down`
moves the AI closer to its target. -/
def afterSecondMove : Pos × AI × Rnd :=
  makeMove afterFirstMove.2.1 { x := 100, y := 503 } { x := 100, y := 600, isPlayer := true }
    Role.chaser (some { x := 100, y := 600 }) quarterDraws 1

/-- An engine that has recorded the pair (`"s"`, `down`) and has learned the
value 1 for it. -/
def rewardedEngine : AI :=
  { freshEngine with
    qTable := [("s", [(Action.down, 1)])]
    lastState := some "s"
    lastAction := some Action.down }

/-- An engine (learning rate 1/10, discount factor 9/10) that has learned the
value -1 for every action of the states `"s"` and `"t"`. -/
def negativeEngine : AI :=
  { freshEngine with
    qTable :=
      [("s", [(Action.up, -1), (Action.down, -1), (Action.left, -1), (Action.right, -1),
              (Action.jump, -1)]),
       ("t", [(Action.up, -1), (Action.down, -1), (Action.left, -1), (Action.right, -1),
              (Action.jump, -1)])] }

/-- The value `max (0, Q (s', a'))` accumulated by the loop of `updateQValue`
over the five actions, read on a table; 0 for the empty label. -/
def maxNext (t : QTable) (nextState : String) : ℚ :=
  if nextState = "" then 0
  else actions.foldl (fun acc b => max acc (qRead t nextState b)) 0

/-- The AI avatar, when there is one, lies within the map bounds
[0, 800] x [0, 600]. -/
def aiInBounds (g : GameState) : Prop :=
  ∀ a : AiAvatar, g.ai = some a → 0 ≤ a.x ∧ a.x ≤ 800 ∧ 0 ≤ a.y ∧ a.y ≤ 600

/-- A session state in which the player, still runner, has the score 5. -/
def fivePointWorld : World :=
  { World.init DataFile.absent with
    gameState :=
      { players := [(0, spawnAvatar)]
        ai := some { x := 100, y := 500, width := 30, height := 30 }
        stars := []
        scores := { player := 5, ai := 0 }
        gameTimer := 12
        gameActive := true
        playerRole := Role.runner
        aiRole := Role.chaser } }

/-- A session in which the AI, at (100, 500), is the runner and three stars are
left: one collected next to the AI, and two uncollected ones at the same
distance 50 from it. -/
def runnerWorld : World :=
  { World.init DataFile.absent with
    gameState :=
      { players := [(0, spawnAvatar)]
        ai := some { x := 100, y := 500, width := 30, height := 30 }
        stars := [{ id := "star_0", x := 100, y := 490, collected := true },
                  { id := "star_1", x := 150, y := 500, collected := false },
                  { id := "star_2", x := 100, y := 450, collected := false }]
        scores := { player := 5, ai := 0 }
        gameTimer := 30
        gameActive := true
        playerRole := Role.chaser
        aiRole := Role.runner } }

/-- The entry pushed onto the position trace by a `recordPlayerPattern` call
with the player position `c.1` at the time `c.2`. -/
def toSample (c : Pos × Nat) : Sample :=
  { x := c.1.x, y := c.1.y, timestamp := c.2 }

/-- A sequence of `recordPlayerPattern` calls, oldest first, each with the
player position and the value of `Date.now ()`. -/
def recordAll (ai : AI) (calls : List (Pos × Nat)) : AI :=
  calls.foldl (fun e c => recordPlayerPattern e c.1 c.2) ai

/-- Twelve recorded positions: the player walks right, one unit per call. -/
def twelveCalls : List (Pos × Nat) :=
  (List.range 12).map (fun (i : Nat) => (({ x := (i : ℚ), y := 0 } : Pos), i))

/-- How many stars of a list are uncollected. -/
def uncollectedCount (stars : List Star) : ℕ :=
  stars.countP (fun s => !s.collected)

/-- The point the countdown can still award: 1 while `gameTimer > 0`, else 0. -/
def timeLeft (g : GameState) : ℤ :=
  if g.gameTimer > 0 then 1 else 0

/-- The session-state part of the invariant of the reachable states: the
player is runner and the AI chaser; the player score, the uncollected stars and
the point the countdown can still award add up to at most 4; and the AI score
is 0, or 1 once the countdown has run out, or at least 100 after a tag. -/
def stuckState (g : GameState) : Prop :=
  g.playerRole = Role.runner ∧ g.aiRole = Role.chaser ∧
  g.scores.player + (uncollectedCount g.stars : ℤ) + timeLeft g ≤ 4 ∧
  ((0 ≤ g.scores.ai ∧ g.scores.ai + timeLeft g ≤ 1) ∨ 100 ≤ g.scores.ai)

/-- The log part of the invariant: no `roleSwitch` was emitted and no
`gameEnd` named the player the winner. -/
def stuckLog (out : List Emit) : Prop :=
  countRoleSwitch out = 0 ∧ ∀ s : Scores, Emit.gameEnd Winner.player s ∉ out

/-- The invariant of the reachable states. -/
def Stuck (w : World) : Prop :=
  stuckState w.gameState ∧ stuckLog w.out

/-- The side with the strictly higher score, and the player when the two
scores are equal. -/
def higherSide (s : Scores) : Winner :=
  if s.ai > s.player then Winner.ai else Winner.player

/-- Every `gameEnd` notification of a log carries scores of which one is at
least 10 and names the side with the strictly higher of them. -/
def endLog (out : List Emit) : Prop :=
  ∀ (winner : Winner) (scores : Scores), Emit.gameEnd winner scores ∈ out →
    winner = higherSide scores ∧ (scores.player ≥ 10 ∨ scores.ai ≥ 10)

/-- An engine constructed from a data file that holds learned values and
rates other than the defaults: epsilon 1/5, learning rate 1/4, discount factor
1/2, 7 episodes, and a value 3/2 for (`"chaser_target_right_far"`, `right`). -/
def trainedEngine : AI :=
  (AI.new (DataFile.json
    { q_table := some [("chaser_target_right_far", [(Action.right, 3 / 2)])]
      episodes := some 7
      epsilon := some (1 / 5)
      learning_rate := some (1 / 4)
      discount_factor := some (1 / 2) })).1

end CANDi

namespace CANDi

/-! ## Facts about mappings and `checkGameEnd` -/

theorem randomIndex_lt (r : Draw) : randomIndex r < actions.length := by
  obtain ⟨h0, h1⟩ := r.2
  have hlt : Int.floor (r.val * 5) < 5 := Int.floor_lt.2 (by push_cast; linarith)
  have hge : 0 ≤ Int.floor (r.val * 5) := Int.floor_nonneg.2 (by linarith)
  simp only [randomIndex, actions, List.length_cons, List.length_nil]
  omega

theorem objGet_objSet_same {κ α : Type} [DecidableEq κ] (l : List (κ × α)) (k : κ) (v : α) :
    objGet (objSet l k v) k = some v := by
  induction l with
  | nil => simp [objSet, objGet]
  | cons h t ih =>
    obtain ⟨k1, v1⟩ := h
    by_cases hk : k1 = k
    · simp [objSet, objGet, hk]
    · simp [objSet, objGet, hk, ih]

theorem checkGameEnd_spec (w : World) (rnd : Rnd) :
    (checkGameEnd w rnd).1.gameState.scores = w.gameState.scores ∧
    (checkGameEnd w rnd).1.gameState.players = w.gameState.players ∧
    (checkGameEnd w rnd).1.gameState.ai = w.gameState.ai ∧
    (checkGameEnd w rnd).1.ai = w.ai ∧
    (checkGameEnd w rnd).1.gameState.playerRole =
      (if roleSwitchDue w.gameState then Role.chaser else w.gameState.playerRole) ∧
    (checkGameEnd w rnd).1.gameState.aiRole =
      (if roleSwitchDue w.gameState then Role.runner else w.gameState.aiRole) ∧
    (checkGameEnd w rnd).1.gameState.gameActive =
      (if gameEndDue w.gameState then false else w.gameState.gameActive) ∧
    (checkGameEnd w rnd).1.gameState.gameTimer =
      (if roleSwitchDue w.gameState then 30 else w.gameState.gameTimer) ∧
    (checkGameEnd w rnd).1.gameState.stars =
      (if roleSwitchDue w.gameState then (generateStars 3 rnd).1 else w.gameState.stars) ∧
    (checkGameEnd w rnd).1.gameInterval =
      (if gameEndDue w.gameState then false else w.gameInterval) ∧
    (checkGameEnd w rnd).1.out = w.out ++ checkGameEndEmits w.gameState := by
  unfold checkGameEnd checkGameEndEmits
  by_cases h1 : roleSwitchDue w.gameState = true <;>
    by_cases hp : w.gameState.scores.player ≥ 10 <;>
    by_cases ha : w.gameState.scores.ai ≥ 10 <;>
    simp [h1, hp, ha, World.emit, gameEndDue]

end CANDi

namespace CANDi

/-! ## Roles and role switches -/

theorem countRoleSwitch_append (a b : List Emit) :
    countRoleSwitch (a ++ b) = countRoleSwitch a + countRoleSwitch b := by
  simp [countRoleSwitch, List.countP_append]

theorem countRoleSwitch_emits (g : GameState) :
    countRoleSwitch (checkGameEndEmits g) = if roleSwitchDue g then 1 else 0 := by
  unfold checkGameEndEmits
  by_cases h1 : roleSwitchDue g = true <;> by_cases h2 : gameEndDue g = true <;>
    simp [h1, h2, countRoleSwitch]

theorem roleSwitchDue_iff (g : GameState) :
    roleSwitchDue g = true ↔
      g.playerRole = Role.runner ∧ (g.scores.player = 5 ∨ g.scores.ai = 5) := by
  simp [roleSwitchDue, and_comm]

theorem Switched.refl (v : Role × Role × Nat) : Switched v v :=
  Or.inl rfl

theorem Switched.trans {a b c : Role × Role × Nat} (h1 : Switched a b) (h2 : Switched b c) :
    Switched a c := by
  rcases h1 with h1 | ⟨ha, hb⟩
  · subst h1; exact h2
  · rcases h2 with h2 | ⟨hb2, _⟩
    · subst h2; exact Or.inr ⟨ha, hb⟩
    · rw [hb] at hb2; cases hb2

theorem checkGameEnd_switched (w : World) (rnd : Rnd) :
    Switched (roleView w) (roleView (checkGameEnd w rnd).1) := by
  obtain ⟨-, -, -, -, hp, ha, -, -, -, -, ho⟩ := checkGameEnd_spec w rnd
  by_cases h : roleSwitchDue w.gameState = true
  · right
    refine ⟨((roleSwitchDue_iff _).1 h).1, ?_⟩
    simp [roleView, hp, ha, ho, h, countRoleSwitch_append, countRoleSwitch_emits]
  · left
    simp [roleView, hp, ha, ho, h, countRoleSwitch_append, countRoleSwitch_emits]

theorem checkGameEnd_switched_of {w w1 : World} (rnd : Rnd) (h : roleView w1 = roleView w) :
    Switched (roleView w) (roleView (checkGameEnd w1 rnd).1) :=
  h ▸ checkGameEnd_switched w1 rnd

theorem roleView_emit_gameState (w : World) (g : GameState) :
    roleView (w.emit (Emit.gameState g)) = roleView w := by
  simp [roleView, World.emit, countRoleSwitch]

theorem collectLoop_switched (pos : Pos) (award : World → World)
    (haward : ∀ w, roleView (award w) = roleView w) :
    ∀ (stars : List Star) (i : Nat) (live : Bool) (w : World) (rnd : Rnd),
      Switched (roleView w) (roleView (collectLoop pos award stars i live w rnd).world) := by
  intro stars
  induction stars with
  | nil => intro i live w rnd; exact Switched.refl _
  | cons star rest ih =>
    intro i live w rnd
    by_cases hit : starHit pos star = true
    · simp only [collectLoop, hit, if_true]
      refine Switched.trans (checkGameEnd_switched_of _ ?_) (ih _ _ _ _)
      rw [haward]
      cases live <;> rfl
    · simp only [collectLoop, hit]
      exact ih _ _ _ _

theorem roleView_awardPlayer (w : World) : roleView (awardPlayer w) = roleView w := rfl

theorem roleView_awardAi (w : World) : roleView (awardAi w) = roleView w := rfl

theorem playerTag_switched (w : World) (p : Avatar) (rnd : Rnd) :
    Switched (roleView w) (roleView (playerTag w p rnd).1) := by
  unfold playerTag
  split
  · split_ifs
    · exact checkGameEnd_switched_of _ rfl
    · exact Switched.refl _
    · exact Switched.refl _
  · exact Switched.refl _

theorem aiTag_switched (w : World) (p : Avatar) (rnd : Rnd) :
    Switched (roleView w) (roleView (aiTag w p rnd).1) := by
  unfold aiTag
  split
  · split_ifs
    · exact checkGameEnd_switched_of _ rfl
    · exact Switched.refl _
    · exact Switched.refl _
  · exact Switched.refl _

theorem onPlayerMove_switched (w : World) (id : ConnId) (m : MoveData) (rnd : Rnd) :
    Switched (roleView w) (roleView (onPlayerMove w id m rnd).1) := by
  unfold onPlayerMove
  split
  · exact Switched.refl _
  · simp only []
    rw [roleView_emit_gameState]
    refine Switched.trans ?_ (playerTag_switched _ _ _)
    split_ifs
    · exact collectLoop_switched _ _ roleView_awardPlayer _ _ _ _ _
    · exact Switched.refl _

theorem timerCallback_switched (w : World) (rnd : Rnd) :
    Switched (roleView w) (roleView (timerCallback w rnd).1) := by
  unfold timerCallback
  by_cases h : w.gameState.gameActive = true ∧ w.gameState.gameTimer > 0
  · by_cases h2 : w.gameState.gameTimer - 1 ≤ 0
    · simp only [h, h2, and_self, if_true]
      rw [roleView_emit_gameState]
      exact checkGameEnd_switched_of _ rfl
    · simp only [h, h2, and_self, if_true, if_false]
      rw [roleView_emit_gameState]
      exact Switched.refl _
  · simp only [h, if_false]
    exact Switched.refl _

theorem aiTick_switched (w : World) (rnd : Rnd) (now : Nat) :
    Switched (roleView w) (roleView (aiTick w rnd now).1) := by
  unfold aiTick
  split
  · split
    · exact Switched.refl _
    · simp only []
      refine Switched.trans ?_ (aiTag_switched _ _ _)
      split_ifs
      · exact collectLoop_switched _ _ roleView_awardAi _ _ _ _ _
      · exact Switched.refl _
  · exact Switched.refl _

end CANDi

namespace CANDi

theorem onConnection_roleView (w : World) (id : ConnId) (rnd : Rnd) :
    roleView (onConnection w id rnd).1 =
      if w.gameState.gameActive = true then roleView w
      else (Role.runner, Role.chaser, countRoleSwitch w.out) := by
  unfold onConnection
  cases h : w.gameState.gameActive <;>
    simp [h, roleView, World.emit, countRoleSwitch, resetGame, startGameTimer]

theorem step_switched (w : World) (e : Event) (h : resets w e = false) :
    Switched (roleView w) (roleView (step w e)) := by
  cases e with
  | connect id rnd =>
    simp only [resets, Bool.not_eq_false_eq_eq_true] at h
    simp only [step, onConnection_roleView, h, if_true]
    exact Switched.refl _
  | message id msg rnd =>
    cases msg with
    | playerMove m => exact onPlayerMove_switched w id m rnd
    | disconnect => exact Switched.refl _
    | restartGame => exact Switched.refl _
  | timerTick rnd =>
    simp only [step]
    split_ifs
    · exact timerCallback_switched w rnd
    · exact Switched.refl _
  | aiTick rnd now => exact aiTick_switched w rnd now

theorem rolesOpposite_of_switched {w w2 : World}
    (h : Switched (roleView w) (roleView w2)) (hw : rolesOpposite w.gameState) :
    rolesOpposite w2.gameState := by
  rcases h with h | ⟨-, h⟩
  · simp only [roleView, Prod.mk.injEq] at h
    unfold rolesOpposite at *
    rw [h.1, h.2.1]; exact hw
  · simp only [roleView, Prod.mk.injEq] at h
    exact Or.inr ⟨h.1, h.2.1⟩

theorem step_rolesOpposite (w : World) (e : Event) (hw : rolesOpposite w.gameState) :
    rolesOpposite (step w e).gameState := by
  cases hr : resets w e
  · exact rolesOpposite_of_switched (step_switched w e hr) hw
  · cases e with
    | connect id rnd =>
      simp only [resets, Bool.not_eq_true_eq_eq_false] at hr
      have hv := onConnection_roleView w id rnd
      simp only [hr, Bool.false_eq_true, if_false, roleView, Prod.mk.injEq] at hv
      exact Or.inl ⟨by simpa using hv.1, by simpa using hv.2.1⟩
    | message id msg rnd => simp [resets] at hr
    | timerTick rnd => simp [resets] at hr
    | aiTick rnd now => simp [resets] at hr

theorem reachable_run {w : World} (h : Reachable w) (events : List Event) :
    Reachable (run w events) := by
  induction events generalizing w with
  | nil => exact h
  | cons e es ih => exact ih (Reachable.step e h)

theorem run_switched (events : List Event) :
    ∀ w : World, noReset w events = true → Switched (roleView w) (roleView (run w events)) := by
  induction events with
  | nil => intro w _; exact Switched.refl _
  | cons e es ih =>
    intro w h
    simp only [noReset, Bool.and_eq_true, Bool.not_eq_true_eq_eq_false] at h
    exact Switched.trans (step_switched w e h.1) (ih (step w e) h.2)

/-! ## C1 -/

/-- C1: in every state reachable from the initial module state through any
sequence of connect, client-message (playerMove, disconnect, restartGame),
timer-tick and AI-tick events, the player role and the AI role are exact
opposites: one is runner and the other is chaser. -/
theorem roles_opposite_of_reachable (w : World) (h : Reachable w) :
    (w.gameState.playerRole = Role.runner ∧ w.gameState.aiRole = Role.chaser) ∨
    (w.gameState.playerRole = Role.chaser ∧ w.gameState.aiRole = Role.runner) := by
  induction h with
  | init file => exact Or.inl ⟨rfl, rfl⟩
  | step e _ ih => exact step_rolesOpposite _ e ih

/-- Witness of C1 at the end of the short match `tagMatch`. -/
theorem roles_opposite_of_reachable_witness :
    Reachable endedWorld ∧
    ((endedWorld.gameState.playerRole = Role.runner ∧
        endedWorld.gameState.aiRole = Role.chaser) ∨
      (endedWorld.gameState.playerRole = Role.chaser ∧
        endedWorld.gameState.aiRole = Role.runner)) :=
  ⟨reachable_run (Reachable.init DataFile.absent) tagMatch,
   roles_opposite_of_reachable endedWorld
     (reachable_run (Reachable.init DataFile.absent) tagMatch)⟩

/-! ## C2 -/

/-- C2, as stated, fails: the match `tagMatch` runs from a reset to its end
(one `gameEnd`, session inactive) and emits no `roleSwitch` at all, because
the tag takes the AI score from 0 to 100 without passing through 5. -/
theorem roleSwitch_absent_in_tagMatch :
    (World.init DataFile.absent).gameState.gameActive = false ∧
    endedWorld.gameState.gameActive = false ∧
    endedWorld.gameState.scores = { player := 0, ai := 100 } ∧
    countGameEnd endedWorld.out = 1 ∧
    countRoleSwitch endedWorld.out = 0 := by
  decide!

/-- C2, amended: one call of `checkGameEnd` emits `roleSwitch` exactly when
the player role is runner and the player score or the AI score equals 5 (and
then once); and over every sequence of events that follows a reset and contains
no further reset, `roleSwitch` is emitted at most once, namely exactly once if
the player has become chaser and not at all otherwise. -/
theorem roleSwitch_at_most_once :
    (∀ (w : World) (rnd : Rnd),
      countRoleSwitch (checkGameEnd w rnd).1.out =
        countRoleSwitch w.out +
          (if w.gameState.playerRole = Role.runner ∧
              (w.gameState.scores.player = 5 ∨ w.gameState.scores.ai = 5) then 1 else 0)) ∧
    (∀ (w : World) (id : ConnId) (rnd : Rnd) (events : List Event),
      w.gameState.gameActive = false →
      noReset (onConnection w id rnd).1 events = true →
      countRoleSwitch (run (onConnection w id rnd).1 events).out ≤ countRoleSwitch w.out + 1 ∧
      (countRoleSwitch (run (onConnection w id rnd).1 events).out = countRoleSwitch w.out + 1 ↔
        (run (onConnection w id rnd).1 events).gameState.playerRole = Role.chaser)) := by
  constructor
  · intro w rnd
    obtain ⟨-, -, -, -, -, -, -, -, -, -, ho⟩ := checkGameEnd_spec w rnd
    rw [ho, countRoleSwitch_append, countRoleSwitch_emits]
    by_cases h : roleSwitchDue w.gameState = true
    · simp [h, (roleSwitchDue_iff _).1 h]
    · have h2 := mt (roleSwitchDue_iff _).2 h
      simp [h, h2]
  · intro w id rnd events hact hno
    have hs := run_switched events _ hno
    have hv := onConnection_roleView w id rnd
    simp only [hact, Bool.false_eq_true, if_false] at hv
    rw [hv] at hs
    rcases hs with hs | ⟨-, hs⟩
    · simp only [roleView, Prod.mk.injEq] at hs
      rw [hs.1, hs.2.2]
      simp
    · simp only [roleView, Prod.mk.injEq] at hs
      rw [hs.1, hs.2.2]
      simp

/-- Witness of C2 (amended) at the match `tagMatch`: the connection resets,
the two later events do not, and no more than one `roleSwitch` is emitted. -/
theorem roleSwitch_at_most_once_witness :
    (World.init DataFile.absent).gameState.gameActive = false ∧
    noReset (onConnection (World.init DataFile.absent) 0 zeroDraws).1 tagMatch.tail = true ∧
    countRoleSwitch
      (run (onConnection (World.init DataFile.absent) 0 zeroDraws).1 tagMatch.tail).out ≤
        countRoleSwitch (World.init DataFile.absent).out + 1 :=
  ⟨rfl, by decide!,
   (roleSwitch_at_most_once.2 (World.init DataFile.absent) 0 zeroDraws tagMatch.tail rfl
     (by decide!)).1⟩

end CANDi

namespace CANDi

/-! ## C3 -/

/-- C3, evaluated at a failing input: `tagMatch` ends the match with one
`gameEnd`; the next `playerMove` of the still connected player, which is no
reset, picks up the three stars, and each pickup of that one loop calls
`checkGameEnd` and emits `gameEnd` again, four notifications in all. -/
theorem gameEnd_repeated_after_match_end :
    endedWorld.gameState.gameActive = false ∧
    countGameEnd endedWorld.out = 1 ∧
    resets endedWorld starPickup = false ∧
    countGameEnd (step endedWorld starPickup).out = 4 := by
  decide!

/-! ## The winner test of `checkGameEnd` -/

/-- The winner test looks at the player score only: in the state
`aiAheadWorld`, with the scores 10 : 11, `checkGameEnd` declares the player the
winner. No sequence of events reaches such a state: the player score never
exceeds 4 in a reachable state. -/
theorem winner_not_higher_side :
    gameEndDue aiAheadWorld.gameState = true ∧
    aiAheadWorld.gameState.scores.player < aiAheadWorld.gameState.scores.ai ∧
    (checkGameEnd aiAheadWorld zeroDraws).1.out =
      [Emit.gameEnd Winner.player { player := 10, ai := 11 }] := by
  decide!

/-- In every session state in which either score is at least 10,
`checkGameEnd` declares the player the winner when the player score is at
least 10 and the AI otherwise; unless the player score is at least 10 and the
AI score is higher still, that is the side with the strictly higher score, and
the player when the scores are equal. -/
theorem checkGameEnd_winner (w : World) (rnd : Rnd)
    (h : w.gameState.scores.player ≥ 10 ∨ w.gameState.scores.ai ≥ 10) :
    (checkGameEnd w rnd).1.out.getLast? =
      some (Emit.gameEnd
        (if w.gameState.scores.player ≥ 10 then Winner.player else Winner.ai)
        w.gameState.scores) ∧
    (¬ (w.gameState.scores.player ≥ 10 ∧ w.gameState.scores.player < w.gameState.scores.ai) →
      (if w.gameState.scores.player ≥ 10 then Winner.player else Winner.ai) =
        (if w.gameState.scores.ai > w.gameState.scores.player then Winner.ai
         else Winner.player)) := by
  constructor
  · obtain ⟨-, -, -, -, -, -, -, -, -, -, ho⟩ := checkGameEnd_spec w rnd
    have hdue : gameEndDue w.gameState = true := by
      simpa [gameEndDue] using h
    rw [ho, checkGameEndEmits, ← List.append_assoc]
    simp only [hdue, if_true]
    exact List.getLast?_concat _
  · intro hn
    by_cases hp : w.gameState.scores.player ≥ 10
    · have : ¬ w.gameState.scores.ai > w.gameState.scores.player := by
        intro hgt; exact hn ⟨hp, hgt⟩
      simp [hp, this]
    · have : w.gameState.scores.ai > w.gameState.scores.player := by omega
      simp [hp, this]

/-! ## C5 -/

/-- The modelling of `Math.sqrt (s) < d` by `s < d * d` is exact over the
reals for a positive bound. -/
theorem sqrtLt_iff_real (s d : ℚ) (hd : 0 < d) :
    sqrtLt s d = true ↔ Real.sqrt (s : ℝ) < (d : ℝ) := by
  have hd2 : (0 : ℝ) < (d : ℝ) := by exact_mod_cast hd
  rw [Real.sqrt_lt' hd2]
  simp only [sqrtLt, decide_eq_true_eq]
  constructor
  · intro h
    have : ((s : ℚ) : ℝ) < ((d * d : ℚ) : ℝ) := by exact_mod_cast h
    simpa [sq] using this
  · intro h
    have : ((s : ℚ) : ℝ) < ((d * d : ℚ) : ℝ) := by simpa [sq] using h
    exact_mod_cast this

theorem playerTag_hit (w : World) (p : Avatar) (a : AiAvatar) (rnd : Rnd)
    (ha : w.gameState.ai = some a) (hrole : w.gameState.playerRole = Role.chaser)
    (hd : sqrtLt (distSq p.x p.y a.x a.y) 40 = true) :
    playerTag w p rnd =
      checkGameEnd
        { w with
          gameState :=
            { w.gameState with
              scores := { w.gameState.scores with player := w.gameState.scores.player + 100 } } }
        rnd := by
  unfold playerTag
  rw [ha]
  simp only [hrole, hd, if_true]

/-- C5: in every session state with non-negative scores, player role chaser
and an AI avatar present, a `playerMove` of a connected player that places the
player at Euclidean distance below 40 from the AI avatar adds exactly 100 to
the player score, leaves the AI score unchanged, makes the session inactive and
emits `gameEnd` with winner player and the new scores (followed by the state
broadcast). -/
theorem player_tag_ends_match (w : World) (id : ConnId) (m : MoveData) (rnd : Rnd)
    (avatar : Avatar) (a : AiAvatar)
    (hconn : objGet w.gameState.players id = some avatar)
    (hai : w.gameState.ai = some a)
    (hrole : w.gameState.playerRole = Role.chaser)
    (hp : 0 ≤ w.gameState.scores.player) (_hs : 0 ≤ w.gameState.scores.ai)
    (hd : Real.sqrt ((distSq (avatar.merge m).x (avatar.merge m).y a.x a.y : ℚ) : ℝ) < 40) :
    (onPlayerMove w id m rnd).1.gameState.scores.player = w.gameState.scores.player + 100 ∧
    (onPlayerMove w id m rnd).1.gameState.scores.ai = w.gameState.scores.ai ∧
    (onPlayerMove w id m rnd).1.gameState.gameActive = false ∧
    (onPlayerMove w id m rnd).1.out =
      w.out ++
        [Emit.gameEnd Winner.player
           { player := w.gameState.scores.player + 100, ai := w.gameState.scores.ai },
         Emit.gameState (onPlayerMove w id m rnd).1.gameState] := by
  have hlt : sqrtLt (distSq (avatar.merge m).x (avatar.merge m).y a.x a.y) 40 = true := by
    rw [sqrtLt_iff_real _ _ (by norm_num)]
    exact_mod_cast hd
  have hmove : (onPlayerMove w id m rnd).1 =
      ((checkGameEnd
        { w with
          gameState :=
            { w.gameState with
              players := objSet w.gameState.players id (avatar.merge m)
              scores := { w.gameState.scores with
                          player := w.gameState.scores.player + 100 } } } rnd).1).emit
        (Emit.gameState (checkGameEnd
        { w with
          gameState :=
            { w.gameState with
              players := objSet w.gameState.players id (avatar.merge m)
              scores := { w.gameState.scores with
                          player := w.gameState.scores.player + 100 } } } rnd).1.gameState) := by
    unfold onPlayerMove
    rw [hconn]
    simp only [hrole, reduceCtorEq, if_false]
    rw [playerTag_hit _ _ a _ ?_ ?_ hlt]
    · exact hai
    · rfl
  obtain ⟨hs, -, -, -, -, -, hact, -, -, -, ho⟩ := checkGameEnd_spec
    { w with
      gameState :=
        { w.gameState with
          players := objSet w.gameState.players id (avatar.merge m)
          scores := { w.gameState.scores with
                      player := w.gameState.scores.player + 100 } } } rnd
  have hdue : gameEndDue
      { w.gameState with
        players := objSet w.gameState.players id (avatar.merge m)
        scores := { w.gameState.scores with
                    player := w.gameState.scores.player + 100 } } = true := by
    simp only [gameEndDue, Bool.or_eq_true, decide_eq_true_eq]
    left; omega
  have hnot : roleSwitchDue
      { w.gameState with
        players := objSet w.gameState.players id (avatar.merge m)
        scores := { w.gameState.scores with
                    player := w.gameState.scores.player + 100 } } = false := by
    simp [roleSwitchDue, hrole]
  have h10 : w.gameState.scores.player + 100 ≥ 10 := by omega
  rw [hmove]
  simp only [World.emit]
  rw [hs, hact, ho]
  simp [checkGameEndEmits, hdue, hnot, h10]

/-- Witness of C5: scores 0 : 0, the chasing player reports (139, 500), at
distance 39 from the AI avatar at (100, 500); the player score becomes 100. -/
theorem player_tag_ends_match_witness :
    (onPlayerMove chaserWorld 0 (moveTo 139 500) zeroDraws).1.gameState.scores.player = 100 ∧
    (onPlayerMove chaserWorld 0 (moveTo 139 500) zeroDraws).1.gameState.scores.ai = 0 ∧
    (onPlayerMove chaserWorld 0 (moveTo 139 500) zeroDraws).1.gameState.gameActive = false ∧
    (onPlayerMove chaserWorld 0 (moveTo 139 500) zeroDraws).1.out =
      [Emit.gameEnd Winner.player { player := 100, ai := 0 },
       Emit.gameState (onPlayerMove chaserWorld 0 (moveTo 139 500) zeroDraws).1.gameState] :=
  player_tag_ends_match chaserWorld 0 (moveTo 139 500) zeroDraws spawnAvatar
    { x := 100, y := 500, width := 30, height := 30 } rfl rfl rfl (by decide) (by decide)
    (by
      have h : sqrtLt (distSq (spawnAvatar.merge (moveTo 139 500)).x
          (spawnAvatar.merge (moveTo 139 500)).y 100 500) 40 = true := by decide!
      have h2 := (sqrtLt_iff_real _ _ (by norm_num)).1 h
      exact_mod_cast h2)

end CANDi

namespace CANDi

/-! ## C6 -/

theorem starHit_eq (pos : Pos) (star : Star) :
    starHit pos star = (!star.collected && within30 pos star) := by
  simp [starHit, within30, Bool.and_assoc]

theorem collectLoop_arr (pos : Pos) (award : World → World) :
    ∀ (stars : List Star) (i : Nat) (live : Bool) (w : World) (rnd : Rnd),
      (collectLoop pos award stars i live w rnd).arr =
        stars.map (fun s => { s with collected := s.collected || within30 pos s }) := by
  intro stars
  induction stars with
  | nil => intro i live w rnd; rfl
  | cons star rest ih =>
    intro i live w rnd
    by_cases hit : starHit pos star = true
    · simp only [collectLoop, hit, if_true, List.map_cons, ih]
      rw [starHit_eq] at hit
      simp only [Bool.and_eq_true, Bool.not_eq_true_eq_eq_false] at hit
      simp [hit.2]
    · simp only [collectLoop, hit, Bool.false_eq_true, if_false, List.map_cons, ih]
      rw [starHit_eq] at hit
      obtain ⟨id, x, y, c⟩ := star
      cases c <;> simp_all [within30]

theorem markCollected_append (pre : List Star) (star : Star) (rest : List Star) :
    markCollected (pre ++ star :: rest) pre.length =
      pre ++ { star with collected := true } :: rest := by
  induction pre with
  | nil => rfl
  | cons p ps ih => simp [markCollected, ih]

theorem collectLoop_scores (pos : Pos) (award : World → World) (dp da : ℤ)
    (hp : ∀ w, (award w).gameState.scores.player = w.gameState.scores.player + dp)
    (ha : ∀ w, (award w).gameState.scores.ai = w.gameState.scores.ai + da) :
    ∀ (stars : List Star) (i : Nat) (live : Bool) (w : World) (rnd : Rnd),
      (collectLoop pos award stars i live w rnd).world.gameState.scores =
        { player := w.gameState.scores.player + dp * (stars.countP (starHit pos) : ℕ)
          ai := w.gameState.scores.ai + da * (stars.countP (starHit pos) : ℕ) } := by
  intro stars
  induction stars with
  | nil => intro i live w rnd; simp [collectLoop]
  | cons star rest ih =>
    intro i live w rnd
    by_cases hit : starHit pos star = true
    · simp only [collectLoop, hit, if_true, ih, List.countP_cons_of_pos]
      rw [(checkGameEnd_spec _ rnd).1, hp, ha]
      have h1 : ∀ l : Bool, (if l = true then
          ({ w with gameState := { w.gameState with
              stars := markCollected w.gameState.stars i } } : World)
          else w).gameState.scores = w.gameState.scores := by
        intro l; cases l <;> rfl
      rw [h1]
      push_cast
      congr 1 <;> ring
    · simp only [collectLoop, hit, Bool.false_eq_true, if_false, ih]
      rw [List.countP_cons_of_neg _ _ hit]

theorem collectLoop_live (pos : Pos) (award : World → World)
    (hstars : ∀ w, (award w).gameState.stars = w.gameState.stars) :
    ∀ (rest pre : List Star) (i : Nat) (live : Bool) (w : World) (rnd : Rnd),
      i = pre.length →
      (live = true → w.gameState.stars = pre ++ rest) →
      (collectLoop pos award rest i live w rnd).live = true →
      live = true ∧
      (collectLoop pos award rest i live w rnd).world.gameState.stars =
        pre ++ (collectLoop pos award rest i live w rnd).arr := by
  intro rest
  induction rest with
  | nil =>
    intro pre i live w rnd _ hw hl
    simp only [collectLoop] at hl ⊢
    exact ⟨hl, hw hl⟩
  | cons star rest ih =>
    intro pre i live w rnd hi hw hl
    by_cases hit : starHit pos star = true
    · simp only [collectLoop, hit, if_true] at hl ⊢
      have key := ih (pre ++ [{ star with collected := true }]) (i + 1) _ _ _
        (by simp [hi]) ?_ hl
      · simp only [Bool.and_eq_true] at key
        refine ⟨key.1.1, ?_⟩
        rw [key.2]; simp
      · intro hlive
        simp only [Bool.and_eq_true, Bool.not_eq_true_eq_eq_false] at hlive
        obtain ⟨hl1, hdue⟩ := hlive
        rw [(checkGameEnd_spec _ rnd).2.2.2.2.2.2.2.2.1]
        simp only [hdue, Bool.false_eq_true, if_false]
        rw [hstars]
        simp only [hl1, if_true]
        rw [hw hl1, hi, markCollected_append]
        simp
    · simp only [collectLoop, hit, Bool.false_eq_true, if_false] at hl ⊢
      have key := ih (pre ++ [star]) (i + 1) live w rnd (by simp [hi])
        (by intro h; rw [hw h]; simp) hl
      refine ⟨key.1, ?_⟩
      rw [key.2]; simp

theorem switched_count {a b : Role × Role × Nat} (h : Switched a b) :
    b.2.2 = a.2.2 ∨ b.2.2 = a.2.2 + 1 := by
  rcases h with h | ⟨-, h⟩
  · left; rw [h]
  · right; rw [h]

theorem collectLoop_live_iff (pos : Pos) (award : World → World)
    (haward : ∀ w, roleView (award w) = roleView w) :
    ∀ (stars : List Star) (i : Nat) (live : Bool) (w : World) (rnd : Rnd),
      ((collectLoop pos award stars i live w rnd).live = true ↔
        live = true ∧
        countRoleSwitch (collectLoop pos award stars i live w rnd).world.out =
          countRoleSwitch w.out) := by
  intro stars
  induction stars with
  | nil => intro i live w rnd; simp [collectLoop]
  | cons star rest ih =>
    intro i live w rnd
    by_cases hit : starHit pos star = true
    · simp only [collectLoop, hit, if_true]
      have hgen : ∀ w2 : World, countRoleSwitch w2.out = countRoleSwitch w.out →
          ((collectLoop pos award rest (i + 1) (live && !roleSwitchDue w2.gameState)
              (checkGameEnd w2 rnd).1 (checkGameEnd w2 rnd).2).live = true ↔
            live = true ∧
            countRoleSwitch (collectLoop pos award rest (i + 1)
              (live && !roleSwitchDue w2.gameState)
              (checkGameEnd w2 rnd).1 (checkGameEnd w2 rnd).2).world.out =
              countRoleSwitch w.out) := by
        intro w2 hc
        rw [ih]
        have hsw := switched_count
          (collectLoop_switched pos award haward rest (i + 1)
            (live && !roleSwitchDue w2.gameState)
            (checkGameEnd w2 rnd).1 (checkGameEnd w2 rnd).2)
        have hout := (checkGameEnd_spec w2 rnd).2.2.2.2.2.2.2.2.2.2
        simp only [roleView] at hsw
        rw [hout, countRoleSwitch_append, countRoleSwitch_emits, hc] at hsw ⊢
        by_cases hdue : roleSwitchDue w2.gameState = true
        · rw [hdue] at hsw ⊢
          simp only [if_true, Bool.not_true, Bool.and_false] at hsw
          simp only [Bool.not_true, Bool.and_false, Bool.false_eq_true, false_and, false_iff,
            not_and]
          intro _
          omega
        · have hdue2 : roleSwitchDue w2.gameState = false := by simpa using hdue
          rw [hdue2]
          simp
      refine hgen _ ?_
      have := congrArg (fun v => v.2.2) (haward (if live = true then
          ({ w with gameState := { w.gameState with
              stars := markCollected w.gameState.stars i } } : World) else w))
      simp only [roleView] at this
      rw [this]
      cases live <;> rfl
    · simp only [collectLoop, hit, Bool.false_eq_true, if_false]
      exact ih _ _ _ _

theorem collectLoop_noHit (pos : Pos) (award : World → World) :
    ∀ (stars : List Star) (i : Nat) (live : Bool) (w : World) (rnd : Rnd),
      (∀ s ∈ stars, starHit pos s = false) →
      collectLoop pos award stars i live w rnd =
        { arr := stars, live := live, world := w, rnd := rnd } := by
  intro stars
  induction stars with
  | nil => intro i live w rnd _; rfl
  | cons star rest ih =>
    intro i live w rnd h
    have h1 : starHit pos star = false := h star (List.mem_cons_self _ _)
    simp only [collectLoop, h1, Bool.false_eq_true, if_false]
    rw [ih _ _ _ _ (fun s hs => h s (List.mem_cons_of_mem _ hs))]

theorem starHit_marked (pos : Pos) (s : Star) :
    starHit pos { s with collected := s.collected || within30 pos s } = false := by
  rw [starHit_eq]
  simp only [within30]
  cases s.collected <;>
    cases decide (|pos.x - s.x| < 30) && decide (|pos.y - s.y| < 30) <;> rfl

end CANDi

namespace CANDi

theorem collectLoop_check (pos : Pos) (award : World → World) (dp da : ℤ)
    (hp : ∀ w, (award w).gameState.scores.player = w.gameState.scores.player + dp)
    (ha : ∀ w, (award w).gameState.scores.ai = w.gameState.scores.ai + da)
    (hstars : ∀ w, (award w).gameState.stars = w.gameState.stars)
    (haward : ∀ w, roleView (award w) = roleView w)
    (w : World) (rnd rnd2 : Rnd) :
    (collectLoop pos award w.gameState.stars 0 true w rnd).arr =
      w.gameState.stars.map (fun s => { s with collected := s.collected || within30 pos s }) ∧
    (collectLoop pos award w.gameState.stars 0 true w rnd).world.gameState.scores =
      { player := w.gameState.scores.player +
          dp * (w.gameState.stars.countP (fun s => !s.collected && within30 pos s) : ℕ)
        ai := w.gameState.scores.ai +
          da * (w.gameState.stars.countP (fun s => !s.collected && within30 pos s) : ℕ) } ∧
    ((collectLoop pos award w.gameState.stars 0 true w rnd).live = true ↔
      countRoleSwitch (collectLoop pos award w.gameState.stars 0 true w rnd).world.out =
        countRoleSwitch w.out) ∧
    ((collectLoop pos award w.gameState.stars 0 true w rnd).live = true →
      (collectLoop pos award w.gameState.stars 0 true w rnd).world.gameState.stars =
        (collectLoop pos award w.gameState.stars 0 true w rnd).arr ∧
      (collectLoop pos award
        (collectLoop pos award w.gameState.stars 0 true w rnd).world.gameState.stars 0 true
        (collectLoop pos award w.gameState.stars 0 true w rnd).world rnd2).world =
        (collectLoop pos award w.gameState.stars 0 true w rnd).world) := by
  have hfun : starHit pos = fun s => !s.collected && within30 pos s :=
    funext (starHit_eq pos)
  refine ⟨collectLoop_arr pos award _ _ _ _ _, ?_, ?_, ?_⟩
  · rw [collectLoop_scores pos award dp da hp ha, hfun]
  · rw [collectLoop_live_iff pos award haward]
    simp
  · intro hl
    have key := collectLoop_live pos award hstars w.gameState.stars [] 0 true w rnd rfl
      (fun _ => rfl) hl
    have hst : (collectLoop pos award w.gameState.stars 0 true w rnd).world.gameState.stars =
        (collectLoop pos award w.gameState.stars 0 true w rnd).arr := by
      simpa using key.2
    refine ⟨hst, ?_⟩
    rw [collectLoop_noHit]
    intro s hs
    rw [hst, collectLoop_arr] at hs
    obtain ⟨s0, -, rfl⟩ := List.mem_map.1 hs
    exact starHit_marked pos s0

/-- C6: the collection check of a `playerMove` (player is runner) and of an
AI tick (AI is runner). On the stars the check iterates, the collected flag
afterwards is the flag before or the star lying within 30 on both axes: exactly
the uncollected stars in range become collected and no flag goes back to false.
The collecting side's score grows by exactly the number of stars that were
uncollected and in range, the other score is unchanged. The session's star list
is still the iterated list precisely when no role switch fired during the check
(a role switch replaces the whole set), and then a second check at the same
position changes nothing at all: a collected star never scores again. -/
theorem collection_idempotent (w : World) (pos : Pos) (rnd rnd2 : Rnd) :
    ((playerCollect w pos rnd).arr =
        w.gameState.stars.map
          (fun s => { s with collected := s.collected || within30 pos s }) ∧
      (playerCollect w pos rnd).world.gameState.scores =
        { player := w.gameState.scores.player +
            (w.gameState.stars.countP (fun s => !s.collected && within30 pos s) : ℕ)
          ai := w.gameState.scores.ai } ∧
      ((playerCollect w pos rnd).live = true ↔
        countRoleSwitch (playerCollect w pos rnd).world.out = countRoleSwitch w.out) ∧
      ((playerCollect w pos rnd).live = true →
        (playerCollect w pos rnd).world.gameState.stars = (playerCollect w pos rnd).arr ∧
        (playerCollect (playerCollect w pos rnd).world pos rnd2).world =
          (playerCollect w pos rnd).world)) ∧
    ((aiCollect w pos rnd).arr =
        w.gameState.stars.map
          (fun s => { s with collected := s.collected || within30 pos s }) ∧
      (aiCollect w pos rnd).world.gameState.scores =
        { player := w.gameState.scores.player
          ai := w.gameState.scores.ai +
            (w.gameState.stars.countP (fun s => !s.collected && within30 pos s) : ℕ) } ∧
      ((aiCollect w pos rnd).live = true ↔
        countRoleSwitch (aiCollect w pos rnd).world.out = countRoleSwitch w.out) ∧
      ((aiCollect w pos rnd).live = true →
        (aiCollect w pos rnd).world.gameState.stars = (aiCollect w pos rnd).arr ∧
        (aiCollect (aiCollect w pos rnd).world pos rnd2).world =
          (aiCollect w pos rnd).world)) := by
  constructor
  · have h := collectLoop_check pos awardPlayer 1 0 (fun _ => rfl)
      (fun w0 => by simp [awardPlayer]) (fun _ => rfl) roleView_awardPlayer w rnd rnd2
    simpa [playerCollect] using h
  · have h := collectLoop_check pos awardAi 0 1 (fun w0 => by simp [awardAi])
      (fun _ => rfl) (fun _ => rfl) roleView_awardAi w rnd rnd2
    simpa [aiCollect] using h

/-- Witness of C6 at the end of `tagMatch`: the three stars lie at (50, 50)
and no role switch is due, so a check at (50, 50) leaves the session's star
list equal to the iterated list and a second check changes nothing. -/
theorem collection_idempotent_witness :
    (playerCollect endedWorld { x := 50, y := 50 } zeroDraws).live = true ∧
    (playerCollect endedWorld { x := 50, y := 50 } zeroDraws).world.gameState.stars =
      (playerCollect endedWorld { x := 50, y := 50 } zeroDraws).arr ∧
    (playerCollect (playerCollect endedWorld { x := 50, y := 50 } zeroDraws).world
        { x := 50, y := 50 } zeroDraws).world =
      (playerCollect endedWorld { x := 50, y := 50 } zeroDraws).world :=
  ⟨by decide!,
   (collection_idempotent endedWorld { x := 50, y := 50 } zeroDraws zeroDraws).1.2.2.2
     (by decide!)⟩

end CANDi

namespace CANDi

/-! ## C7 -/

theorem generateStars_three (rnd : Rnd) :
    (generateStars 3 rnd).1 =
      [{ id := "star_0", x := (rnd 0).val * (800 - 100) + 50,
         y := (rnd 1).val * (600 - 100) + 50, collected := false },
       { id := "star_1", x := (rnd 2).val * (800 - 100) + 50,
         y := (rnd 3).val * (600 - 100) + 50, collected := false },
       { id := "star_2", x := (rnd 4).val * (800 - 100) + 50,
         y := (rnd 5).val * (600 - 100) + 50, collected := false }] := by
  have h0 : "star_" ++ toString (0 : Nat) = "star_0" := by decide
  have h1 : "star_" ++ toString (1 : Nat) = "star_1" := by decide
  have h2 : "star_" ++ toString (2 : Nat) = "star_2" := by decide
  simp only [generateStars, generateStarsLoop, Rnd.next, h0, h1, h2]

theorem star_in_bounds (rx ry : Draw) :
    50 ≤ rx.val * (800 - 100) + 50 ∧ rx.val * (800 - 100) + 50 < 750 ∧
    50 ≤ ry.val * (600 - 100) + 50 ∧ ry.val * (600 - 100) + 50 < 550 := by
  obtain ⟨hx0, hx1⟩ := rx.2
  obtain ⟨hy0, hy1⟩ := ry.2
  refine ⟨?_, ?_, ?_, ?_⟩ <;> linarith

theorem onConnection_inactive (w : World) (id : ConnId) (rnd : Rnd)
    (h : w.gameState.gameActive = false) :
    (onConnection w id rnd).1.gameState =
      { players := objSet w.gameState.players id spawnAvatar
        ai := some { x := 100, y := 500, width := 30, height := 30 }
        stars := (generateStars 3 rnd).1
        scores := { player := 0, ai := 0 }
        gameTimer := 30
        gameActive := true
        playerRole := Role.runner
        aiRole := Role.chaser } := by
  simp [onConnection, h, resetGame, startGameTimer, World.emit]

/-- C7: in every session state with `gameActive = false`, a connect event
performs a reset. Afterwards the scores are 0 : 0, the timer is 30, the session
is active, the player is runner and the AI chaser, there are exactly 3 stars
with distinct ids, all uncollected and each at a position in
[50, 750) x [50, 550) whatever the random draws in [0, 1) are, the AI avatar is
at (100, 500) with size 30 x 30, and the connecting player has the avatar
spawned at (700, 500). -/
theorem connect_resets_inactive_session (w : World) (id : ConnId) (rnd : Rnd)
    (h : w.gameState.gameActive = false) :
    (onConnection w id rnd).1.gameState.scores = { player := 0, ai := 0 } ∧
    (onConnection w id rnd).1.gameState.gameTimer = 30 ∧
    (onConnection w id rnd).1.gameState.gameActive = true ∧
    (onConnection w id rnd).1.gameState.playerRole = Role.runner ∧
    (onConnection w id rnd).1.gameState.aiRole = Role.chaser ∧
    (onConnection w id rnd).1.gameState.stars.length = 3 ∧
    ((onConnection w id rnd).1.gameState.stars.map Star.id).Nodup ∧
    (∀ s ∈ (onConnection w id rnd).1.gameState.stars,
      s.collected = false ∧ 50 ≤ s.x ∧ s.x < 750 ∧ 50 ≤ s.y ∧ s.y < 550) ∧
    (onConnection w id rnd).1.gameState.ai =
      some { x := 100, y := 500, width := 30, height := 30 } ∧
    objGet (onConnection w id rnd).1.gameState.players id = some spawnAvatar ∧
    spawnAvatar.x = 700 ∧ spawnAvatar.y = 500 := by
  rw [onConnection_inactive w id rnd h, generateStars_three]
  have hids : (["star_0", "star_1", "star_2"] : List String).Nodup := by decide
  refine ⟨rfl, rfl, rfl, rfl, rfl, rfl, hids, ?_, rfl, objGet_objSet_same _ _ _, rfl, rfl⟩
  intro s hs
  simp only [List.mem_cons, List.mem_singleton, List.not_mem_nil, or_false] at hs
  rcases hs with rfl | rfl | rfl
  · exact ⟨rfl, star_in_bounds (rnd 0) (rnd 1)⟩
  · exact ⟨rfl, star_in_bounds (rnd 2) (rnd 3)⟩
  · exact ⟨rfl, star_in_bounds (rnd 4) (rnd 5)⟩

/-- Witness of C7: a first connection to the freshly loaded server, and a
connection after the match `tagMatch` has ended. -/
theorem connect_resets_inactive_session_witness :
    endedWorld.gameState.gameActive = false ∧
    (onConnection endedWorld 1 zeroDraws).1.gameState.scores = { player := 0, ai := 0 } ∧
    (onConnection endedWorld 1 zeroDraws).1.gameState.gameTimer = 30 ∧
    (onConnection endedWorld 1 zeroDraws).1.gameState.gameActive = true :=
  ⟨by decide!,
   (connect_resets_inactive_session endedWorld 1 zeroDraws (by decide!)).1,
   (connect_resets_inactive_session endedWorld 1 zeroDraws (by decide!)).2.1,
   (connect_resets_inactive_session endedWorld 1 zeroDraws (by decide!)).2.2.1⟩

end CANDi

namespace CANDi

/-! ## C8 -/

/-- C8: the countdown callback. In an active session with `gameTimer = 1` it
sets the timer to 0, adds exactly 1 to both scores, applies `checkGameEnd` to
that state and broadcasts the result (so both scores end 1 higher); with
`gameTimer > 1` it only decrements the timer by 1 and broadcasts, changing no
score; with `gameTimer = 0` or `gameActive = false` it changes nothing. -/
theorem timer_tick (w : World) (rnd : Rnd) :
    (w.gameState.gameActive = true → w.gameState.gameTimer = 1 →
      timerCallback w rnd =
        (((checkGameEnd (timeUp w) rnd).1).emit
            (Emit.gameState (checkGameEnd (timeUp w) rnd).1.gameState),
          (checkGameEnd (timeUp w) rnd).2) ∧
      (timerCallback w rnd).1.gameState.scores =
        { player := w.gameState.scores.player + 1, ai := w.gameState.scores.ai + 1 }) ∧
    (w.gameState.gameActive = true → w.gameState.gameTimer > 1 →
      timerCallback w rnd =
        (({ w with gameState :=
              { w.gameState with gameTimer := w.gameState.gameTimer - 1 } } : World).emit
            (Emit.gameState { w.gameState with gameTimer := w.gameState.gameTimer - 1 }),
          rnd) ∧
      (timerCallback w rnd).1.gameState.scores = w.gameState.scores) ∧
    ((w.gameState.gameTimer = 0 ∨ w.gameState.gameActive = false) →
      timerCallback w rnd = (w, rnd)) := by
  refine ⟨?_, ?_, ?_⟩
  · intro hact ht
    have heq : timerCallback w rnd =
        (((checkGameEnd (timeUp w) rnd).1).emit
            (Emit.gameState (checkGameEnd (timeUp w) rnd).1.gameState),
          (checkGameEnd (timeUp w) rnd).2) := by
      simp [timerCallback, timeUp, hact, ht]
    refine ⟨heq, ?_⟩
    rw [heq]
    simp only [World.emit]
    rw [(checkGameEnd_spec (timeUp w) rnd).1]
    rfl
  · intro hact ht
    have hnot : ¬ (w.gameState.gameTimer - 1 ≤ 0) := by omega
    have hpos : w.gameState.gameTimer > 0 := by omega
    have heq : timerCallback w rnd =
        (({ w with gameState :=
              { w.gameState with gameTimer := w.gameState.gameTimer - 1 } } : World).emit
            (Emit.gameState { w.gameState with gameTimer := w.gameState.gameTimer - 1 }),
          rnd) := by
      simp only [timerCallback, hact, hpos, and_self, if_true, hnot, if_false]
    refine ⟨heq, ?_⟩
    rw [heq]
    rfl
  · intro h
    rcases h with h | h
    · simp [timerCallback, h]
    · simp [timerCallback, h]

/-- Witness of C8: an active session with one second left, scores 0 : 0;
after the tick both scores are 1. -/
theorem timer_tick_witness :
    lastSecondWorld.gameState.gameActive = true ∧
    lastSecondWorld.gameState.gameTimer = 1 ∧
    (timerCallback lastSecondWorld zeroDraws).1.gameState.scores = { player := 1, ai := 1 } :=
  ⟨rfl, rfl, ((timer_tick lastSecondWorld zeroDraws).1 rfl rfl).2⟩

end CANDi

namespace CANDi

/-! ## C9 -/

/-- C9, evaluated at a failing input: after `tagMatch` the match has ended
(session inactive, one `gameEnd`, scores 0 : 100) and player 0 is still
connected; its next `playerMove` is not ignored: the player score goes from 0
to 3, the three stars become collected and three more `gameEnd` notifications
are emitted. -/
theorem playerMove_after_match_end :
    endedWorld.gameState.gameActive = false ∧
    countGameEnd endedWorld.out = 1 ∧
    (objGet endedWorld.gameState.players 0).isSome = true ∧
    endedWorld.gameState.scores = { player := 0, ai := 100 } ∧
    endedWorld.gameState.stars.map Star.collected = [false, false, false] ∧
    (step endedWorld starPickup).gameState.scores = { player := 3, ai := 100 } ∧
    (step endedWorld starPickup).gameState.stars.map Star.collected = [true, true, true] ∧
    (step endedWorld starPickup).out =
      endedWorld.out ++
        [Emit.gameEnd Winner.ai { player := 1, ai := 100 },
         Emit.gameEnd Winner.ai { player := 2, ai := 100 },
         Emit.gameEnd Winner.ai { player := 3, ai := 100 },
         Emit.gameState (step endedWorld starPickup).gameState] := by
  decide!

/-! ## C10 -/

/-- C10, evaluated at a failing input: the server registers no listener for
`restartGame`, so in the ended state of `tagMatch` the request leaves the world
as it is: the session stays inactive with the scores 0 : 100 and no new round
starts. -/
theorem restartGame_ignored :
    endedWorld.gameState.gameActive = false ∧
    endedWorld.gameState.scores = { player := 0, ai := 100 } ∧
    step endedWorld (Event.message 0 ClientMessage.restartGame zeroDraws) = endedWorld ∧
    (step endedWorld
      (Event.message 0 ClientMessage.restartGame zeroDraws)).gameState.gameActive = false := by
  decide!

end CANDi

namespace CANDi

/-! ## C11 -/

theorem randomAction_eq_up_iff (r : Draw) : randomAction r = Action.up ↔ r.val < 1 / 5 := by
  obtain ⟨h0, h1⟩ := r.2
  have hlt := randomIndex_lt r
  simp only [actions, List.length_cons, List.length_nil] at hlt
  have hfloor : randomIndex r = 0 ↔ r.val < 1 / 5 := by
    have hge : 0 ≤ Int.floor (r.val * 5) := Int.floor_nonneg.2 (by linarith)
    constructor
    · intro h
      have h2 : Int.floor (r.val * 5) < 1 := by
        simp only [randomIndex] at h; omega
      have := Int.floor_lt.1 h2
      push_cast at this; linarith
    · intro h
      have h2 : Int.floor (r.val * 5) < 1 := Int.floor_lt.2 (by push_cast; linarith)
      simp only [randomIndex]; omega
  rw [← hfloor]
  unfold randomAction
  generalize randomIndex r = i at hlt
  interval_cases i <;> simp [actions]

/-- C11, as stated, fails: the fresh engine with exploration rate 0 has no
entry for the label `chaser_target_up_close`, which `getState` builds for a
chasing AI at (100, 500) and a target at (100, 480), and when the draws are all
1/2 `chooseAction` returns `left`, not the first action `up`. -/
theorem chooseAction_unseen_not_first :
    greedyEngine.epsilon = 0 ∧
    getState { x := 100, y := 500 } { x := 100, y := 480, isPlayer := true } Role.chaser
      (some { x := 100, y := 480 }) = "chaser_target_up_close" ∧
    objGet greedyEngine.qTable "chaser_target_up_close" = none ∧
    (chooseAction greedyEngine "chaser_target_up_close" halfDraws).1 = Action.left := by
  decide!

/-- On a label without an own entry in the value table, `chooseAction` with
exploration rate 0 returns the action at index `floor (5 * r)` of the action
list, `r` being the second random draw, and leaves the engine unchanged. -/
theorem chooseAction_absent (ai : AI) (state : String) (rnd : Rnd)
    (heps : ai.epsilon = 0) (h : objGet ai.qTable state = none) :
    actions.get? (Int.floor ((rnd 1).val * 5)).toNat = some (chooseAction ai state rnd).1 ∧
    (chooseAction ai state rnd).2.1 = ai ∧
    ((chooseAction ai state rnd).1 = Action.up ↔ (rnd 1).val < 1 / 5) := by
  have hno : ¬ (rnd 0).val < 0 := not_lt.2 (rnd 0).2.1
  have hc : chooseAction ai state rnd = (randomAction (rnd 1), ai, fun n => rnd (n + 1 + 1)) := by
    simp [chooseAction, Rnd.next, heps, hno, h]
  rw [hc]
  refine ⟨?_, rfl, randomAction_eq_up_iff _⟩
  have hlt := randomIndex_lt (rnd 1)
  simp only [randomAction, randomIndex] at hlt ⊢
  rw [List.get?_eq_get hlt]
  simp

/-- C11, amended: for every state label built by `getState` that has no entry
in the value table, `chooseAction` with exploration rate 0 returns the action
at index `floor (5 * r)` of the action list, `r` being the second random draw,
and leaves the engine unchanged; it returns the first action `up` exactly when
`r < 1/5`. (Labels that name a property a plain object inherits, which
`getState` never builds, are left out.) -/
theorem chooseAction_unseen (ai : AI) (aiPos : Pos) (target : Target) (role : Role)
    (player : Option Pos) (rnd : Rnd) (heps : ai.epsilon = 0)
    (h : objGet ai.qTable (getState aiPos target role player) = none) :
    actions.get? (Int.floor ((rnd 1).val * 5)).toNat =
      some (chooseAction ai (getState aiPos target role player) rnd).1 ∧
    (chooseAction ai (getState aiPos target role player) rnd).2.1 = ai ∧
    ((chooseAction ai (getState aiPos target role player) rnd).1 = Action.up ↔
      (rnd 1).val < 1 / 5) :=
  chooseAction_absent ai (getState aiPos target role player) rnd heps h

/-- Witness of C11 (amended): for a chasing AI at (100, 500) and a target at
(100, 480) `getState` builds the label `chaser_target_up_close`, which the
fresh engine with exploration rate 0 has not seen; with draws that are all 1/2
the index is 2 and the action returned is not `up`. -/
theorem chooseAction_unseen_witness :
    greedyEngine.epsilon = 0 ∧
    getState { x := 100, y := 500 } { x := 100, y := 480, isPlayer := true } Role.chaser
      (some { x := 100, y := 480 }) = "chaser_target_up_close" ∧
    objGet greedyEngine.qTable
      (getState { x := 100, y := 500 } { x := 100, y := 480, isPlayer := true } Role.chaser
        (some { x := 100, y := 480 })) = none ∧
    (Int.floor ((halfDraws 1).val * 5)).toNat = 2 ∧
    actions.get? (Int.floor ((halfDraws 1).val * 5)).toNat =
      some (chooseAction greedyEngine
        (getState { x := 100, y := 500 } { x := 100, y := 480, isPlayer := true } Role.chaser
          (some { x := 100, y := 480 })) halfDraws).1 ∧
    (chooseAction greedyEngine
      (getState { x := 100, y := 500 } { x := 100, y := 480, isPlayer := true } Role.chaser
        (some { x := 100, y := 480 })) halfDraws).1 ≠ Action.up :=
  ⟨rfl, by decide!, by decide!, by decide!,
   (chooseAction_unseen greedyEngine { x := 100, y := 500 }
     { x := 100, y := 480, isPlayer := true } Role.chaser (some { x := 100, y := 480 })
     halfDraws rfl (by decide!)).1,
   fun hup => absurd
     ((chooseAction_unseen greedyEngine { x := 100, y := 500 }
       { x := 100, y := 480, isPlayer := true } Role.chaser (some { x := 100, y := 480 })
       halfDraws rfl (by decide!)).2.2.1 hup)
     (by decide!)⟩

/-! ## C12 -/

theorem getQValue_present (ai : AI) (state : String) (action : Action) (row : ActionValues)
    (h : objGet ai.qTable state = some row) :
    getQValue ai state action = (qRead ai.qTable state action, ai) := by
  simp [getQValue, qRead, h]

theorem bestLoop_present (ai : AI) (state : String) (row : ActionValues)
    (h : objGet ai.qTable state = some row) :
    ∀ (l : List Action) (best : Action) (bv : ℚ),
      bestLoop state l best bv ai = (firstMax (qRead ai.qTable state) l best bv, ai) := by
  intro l
  induction l with
  | nil => intro best bv; rfl
  | cons a rest ih =>
    intro best bv
    simp only [bestLoop, firstMax, getQValue_present ai state a row h]
    split_ifs
    · exact ih _ _
    · exact ih _ _

theorem firstMax_actions (f : Action → ℚ) :
    (∀ b : Action, f b ≤ f (firstMax f actions Action.up (f Action.up))) ∧
    (∀ b : Action,
      actions.indexOf b < actions.indexOf (firstMax f actions Action.up (f Action.up)) →
      f b < f (firstMax f actions Action.up (f Action.up))) := by
  simp only [actions, firstMax, lt_irrefl, gt_iff_lt, if_false]
  split_ifs <;> refine ⟨fun b => ?_, fun b hb => ?_⟩ <;> cases b <;>
    first
      | linarith
      | exact absurd hb (by decide)

/-- C12: for every value table and every state label present in it,
`chooseAction` on its exploit branch (first draw not below epsilon, which is
every draw when epsilon is 0) returns an action whose learned value (absent
entries read as 0) is the highest for that state, every action earlier in the
list up, down, left, right, jump having a strictly smaller value; the engine,
and so the table, is left unchanged. -/
theorem chooseAction_exploit (ai : AI) (state : String) (rnd : Rnd) (row : ActionValues)
    (h : objGet ai.qTable state = some row) (hr : ai.epsilon ≤ (rnd 0).val) :
    (chooseAction ai state rnd).2.1 = ai ∧
    (∀ b : Action,
      qRead ai.qTable state b ≤ qRead ai.qTable state (chooseAction ai state rnd).1) ∧
    (∀ b : Action, actions.indexOf b < actions.indexOf (chooseAction ai state rnd).1 →
      qRead ai.qTable state b < qRead ai.qTable state (chooseAction ai state rnd).1) := by
  have hno : ¬ (rnd 0).val < ai.epsilon := not_lt.2 hr
  have hc : chooseAction ai state rnd =
      (firstMax (qRead ai.qTable state) actions Action.up (qRead ai.qTable state Action.up),
        ai, fun n => rnd (n + 1)) := by
    simp only [chooseAction, Rnd.next, hno, if_false, h,
      getQValue_present ai state _ row h, bestLoop_present ai state row h]
  rw [hc]
  exact ⟨rfl, firstMax_actions (qRead ai.qTable state)⟩

/-- Witness of C12: with the values up 0, down 1, left 0, right 1, jump 0 for
the state `"s"` and exploration rate 0, the engine is unchanged and the value
of the chosen action is at least that of `right`; the choice is `down`. -/
theorem chooseAction_exploit_witness :
    objGet tiedEngine.qTable "s" =
      some [(Action.up, 0), (Action.down, 1), (Action.left, 0), (Action.right, 1),
            (Action.jump, 0)] ∧
    tiedEngine.epsilon ≤ (zeroDraws 0).val ∧
    (chooseAction tiedEngine "s" zeroDraws).2.1 = tiedEngine ∧
    qRead tiedEngine.qTable "s" Action.right ≤
      qRead tiedEngine.qTable "s" (chooseAction tiedEngine "s" zeroDraws).1 ∧
    (chooseAction tiedEngine "s" zeroDraws).1 = Action.down :=
  ⟨rfl, by decide!,
   (chooseAction_exploit tiedEngine "s" zeroDraws _ rfl (by decide!)).1,
   (chooseAction_exploit tiedEngine "s" zeroDraws _ rfl (by decide!)).2.1 Action.right,
   by decide!⟩

end CANDi

namespace CANDi

/-! ## C13 -/

/-- C13, evaluated at a failing input: on the fresh engine a first `makeMove`
selects the pair (`chaser_target_right_far`, `down`) and a second `makeMove`
makes a transition with the positive shaping reward 1; the learned value of
the first pair is -1/20 after the first call and still -1/20 after the second,
which updated the pair (`chaser_target_down_medium`, `down`) instead. -/
theorem first_pair_not_reinforced :
    afterFirstMove.1 = { x := 100, y := 503 } ∧
    afterFirstMove.2.1.lastState = some "chaser_target_right_far" ∧
    afterFirstMove.2.1.lastAction = some Action.down ∧
    calculateReward { x := 100, y := 503 } { x := 100, y := 600, isPlayer := true }
      Role.chaser (some { x := 100, y := 600 }) afterSecondMove.1 = 1 ∧
    qRead afterFirstMove.2.1.qTable "chaser_target_right_far" Action.down = -(1 / 20) ∧
    qRead afterSecondMove.2.1.qTable "chaser_target_right_far" Action.down = -(1 / 20) ∧
    qRead afterFirstMove.2.1.qTable "chaser_target_down_medium" Action.down = 0 ∧
    qRead afterSecondMove.2.1.qTable "chaser_target_down_medium" Action.down = 1 / 10 := by
  decide!

/-! ## C14 -/

/-- C14, evaluated at a failing input: the fresh engine has no previous pair
and every learned value reads 0, yet its first `makeMove` (chasing AI at
(100, 500), player at (700, 500), draws all 1/4) performs a Q-update: the
value of (`chaser_target_right_far`, `down`) is -1/20 afterwards. -/
theorem first_move_updates :
    freshEngine.lastState = none ∧
    freshEngine.lastAction = none ∧
    freshEngine.qTable = [] ∧
    qRead freshEngine.qTable "chaser_target_right_far" Action.down = 0 ∧
    qRead
      (makeMove freshEngine { x := 100, y := 500 } { x := 700, y := 500, isPlayer := true }
        Role.chaser (some { x := 700, y := 500 }) quarterDraws 0).2.1.qTable
      "chaser_target_right_far" Action.down = -(1 / 20) := by
  decide!

end CANDi

namespace CANDi

/-! ## C16 -/

theorem objGet_objSet_other {κ α : Type} [DecidableEq κ] (l : List (κ × α)) (k k2 : κ) (v : α)
    (hne : k2 ≠ k) : objGet (objSet l k v) k2 = objGet l k2 := by
  induction l with
  | nil => simp [objSet, objGet, Ne.symm hne]
  | cons h t ih =>
    obtain ⟨k1, v1⟩ := h
    by_cases hk : k1 = k
    · subst hk
      simp [objSet, objGet, Ne.symm hne]
    · by_cases hk2 : k1 = k2
      · subst hk2
        simp [objSet, objGet, hk]
      · simp [objSet, objGet, hk, hk2, ih]

theorem objGet_freshRow (a : Action) : objGet freshRow a = some 0 := by
  cases a <;> rfl

theorem orNum_some_zero (v : ℚ) : orNum (some v) 0 = v := by
  simp only [orNum]
  split_ifs with hv
  · exact hv.symm
  · rfl

theorem qRead_objSet (t : QTable) (s : String) (a : Action) (v : ℚ) (s2 : String)
    (a2 : Action) :
    qRead (objSet t s (objSet ((objGet t s).getD []) a v)) s2 a2 =
      if s2 = s ∧ a2 = a then v else qRead t s2 a2 := by
  by_cases hs : s2 = s
  · subst hs
    by_cases ha : a2 = a
    · subst ha
      simp only [qRead, objGet_objSet_same, Option.some_bind, orNum_some_zero, and_self,
        if_true]
    · simp only [qRead, objGet_objSet_same, Option.some_bind, ha, and_false, if_false]
      rw [objGet_objSet_other _ _ _ _ ha]
      cases objGet t s2 <;> simp [objGet]
  · simp only [qRead, hs, false_and, if_false]
    rw [objGet_objSet_other _ _ _ _ hs]

theorem getQValue_fst (ai : AI) (s : String) (a : Action) :
    (getQValue ai s a).1 = qRead ai.qTable s a := by
  cases h : objGet ai.qTable s with
  | some row => rw [getQValue_present ai s a row h]
  | none =>
    simp [getQValue, qRead, h, objGet_objSet_same, objGet_freshRow, orNum]

theorem getQValue_snd (ai : AI) (s : String) (a : Action) :
    (getQValue ai s a).2 = { ai with qTable := (getQValue ai s a).2.qTable } := by
  cases h : objGet ai.qTable s <;> simp [getQValue, h]

theorem getQValue_qRead (ai : AI) (s : String) (a : Action) (s2 : String) (a2 : Action) :
    qRead (getQValue ai s a).2.qTable s2 a2 = qRead ai.qTable s2 a2 := by
  cases h : objGet ai.qTable s with
  | some row => rw [getQValue_present ai s a row h]
  | none =>
    simp only [getQValue, h]
    by_cases hs : s2 = s
    · subst hs
      simp [qRead, objGet_objSet_same, objGet_freshRow, h, orNum]
    · simp only [qRead]
      rw [objGet_objSet_other _ _ _ _ hs]

/-- C16: for every engine with a recorded last pair (s, a) and every reward
r, `giveReward` sets the learned value of (s, a) to its old value (0 if
absent) plus `learningRate * r` and leaves the learned value of every other
pair unchanged; when no last pair is recorded it leaves the engine, and so the
value table, unchanged. -/
theorem giveReward_spec (ai : AI) (r : ℚ) :
    (∀ (s : String) (a : Action), ai.lastState = some s → ai.lastAction = some a →
      qRead (giveReward ai r).qTable s a = qRead ai.qTable s a + ai.learningRate * r ∧
      ∀ (s2 : String) (a2 : Action), ¬ (s2 = s ∧ a2 = a) →
        qRead (giveReward ai r).qTable s2 a2 = qRead ai.qTable s2 a2) ∧
    ((ai.lastState = none ∨ ai.lastAction = none) → giveReward ai r = ai) := by
  constructor
  · intro s a hs ha
    have hg : (giveReward ai r).qTable =
        objSet (getQValue ai s a).2.qTable s
          (objSet ((objGet (getQValue ai s a).2.qTable s).getD []) a
            ((getQValue ai s a).1 + (getQValue ai s a).2.learningRate * r)) := by
      simp only [giveReward, hs, ha]
    have hlr : (getQValue ai s a).2.learningRate = ai.learningRate := by
      rw [getQValue_snd]
    rw [hg, hlr, getQValue_fst]
    constructor
    · rw [qRead_objSet]; simp
    · intro s2 a2 hne
      rw [qRead_objSet, if_neg hne, getQValue_qRead]
  · intro h
    rcases h with h | h
    · simp [giveReward, h]
    · unfold giveReward
      rw [h]
      cases ai.lastState <;> rfl

/-- Witness of C16: an engine whose last pair (`"s"`, `down`) has the value
1 and whose learning rate is 1/10 receives the reward 10. -/
theorem giveReward_spec_witness :
    rewardedEngine.lastState = some "s" ∧
    rewardedEngine.lastAction = some Action.down ∧
    qRead (giveReward rewardedEngine 10).qTable "s" Action.down =
      qRead rewardedEngine.qTable "s" Action.down + rewardedEngine.learningRate * 10 ∧
    qRead (giveReward rewardedEngine 10).qTable "s" Action.up =
      qRead rewardedEngine.qTable "s" Action.up :=
  ⟨rfl, rfl,
   ((giveReward_spec rewardedEngine 10).1 "s" Action.down rfl rfl).1,
   ((giveReward_spec rewardedEngine 10).1 "s" Action.down rfl rfl).2 "s" Action.up
     (by decide)⟩

end CANDi

namespace CANDi

/-! ## C15 -/

theorem maxLoop_present (ai : AI) (s : String) (row : ActionValues)
    (h : objGet ai.qTable s = some row) :
    ∀ (l : List Action) (m : ℚ),
      maxLoop s l m ai = (l.foldl (fun acc b => max acc (qRead ai.qTable s b)) m, ai) := by
  intro l
  induction l with
  | nil => intro m; rfl
  | cons a rest ih =>
    intro m
    simp only [maxLoop, getQValue_present ai s a row h, List.foldl_cons]
    exact ih _

theorem qRead_absent (t : QTable) (s : String) (a : Action) (h : objGet t s = none) :
    qRead t s a = 0 := by
  simp [qRead, h, orNum]

theorem updateQValue_qTable (ai : AI) (s : String) (a : Action) (r : ℚ) (s2 : String) :
    (updateQValue ai s a r s2).qTable =
      objSet (getQValue ai s a).2.qTable s
        (objSet ((objGet (getQValue ai s a).2.qTable s).getD []) a
          (qRead ai.qTable s a +
            ai.learningRate * (r + ai.discountFactor * maxNext ai.qTable s2 -
              qRead ai.qTable s a))) := by
  have hq : ∀ b, qRead (getQValue ai s a).2.qTable s2 b = qRead ai.qTable s2 b :=
    fun b => getQValue_qRead ai s a s2 b
  have hfields : (getQValue ai s a).2.learningRate = ai.learningRate ∧
      (getQValue ai s a).2.discountFactor = ai.discountFactor := by
    rw [getQValue_snd]; exact ⟨rfl, rfl⟩
  by_cases hs2 : s2 = ""
  · simp only [updateQValue, hs2, ne_eq, not_true_eq_false, false_and, if_false, maxNext,
      if_true, getQValue_fst, hfields.1, hfields.2]
  · cases hrow : objGet (getQValue ai s a).2.qTable s2 with
    | some row =>
      simp only [updateQValue, hs2, ne_eq, not_false_eq_true, hrow, Option.isSome_some,
        and_self, if_true, maxNext, if_false,
        maxLoop_present (getQValue ai s a).2 s2 row hrow, getQValue_fst, hfields.1,
        hfields.2, hq]
    | none =>
      have hzero : ∀ b, qRead ai.qTable s2 b = 0 := fun b => by
        rw [← hq b]; exact qRead_absent _ _ _ hrow
      simp [updateQValue, hs2, hrow, maxNext, actions, hzero, getQValue_fst, hfields.1,
        hfields.2]

/-- What `updateQValue` does: the learned value of (s, a) becomes
`Q + alpha * (r + gamma * M - Q)` with `M` the maximum of 0 and the five values
of the next state (0 for the empty label), and the learned value of every
other pair is unchanged. -/
theorem updateQValue_spec (ai : AI) (s : String) (a : Action) (r : ℚ) (s2 : String) :
    qRead (updateQValue ai s a r s2).qTable s a =
      qRead ai.qTable s a +
        ai.learningRate * (r + ai.discountFactor * maxNext ai.qTable s2 - qRead ai.qTable s a) ∧
    ∀ (s3 : String) (a3 : Action), ¬ (s3 = s ∧ a3 = a) →
      qRead (updateQValue ai s a r s2).qTable s3 a3 = qRead ai.qTable s3 a3 := by
  rw [updateQValue_qTable]
  constructor
  · rw [qRead_objSet]; simp
  · intro s3 a3 hne
    rw [qRead_objSet, if_neg hne, getQValue_qRead]

/-- C15, evaluated at a failing input: every action of the next state `"t"`
has the learned value -1, so the maximum over the five actions is -1 and the
claimed new value of (`"s"`, `up`) for reward 0 is
`-1 + 1/10 * (0 + 9/10 * (-1) - (-1)) = -99/100`; `updateQValue` starts its
maximum at 0 and stores `-1 + 1/10 * (0 + 9/10 * 0 - (-1)) = -9/10`. -/
theorem updateQValue_max_starts_at_zero :
    (∀ b : Action, qRead negativeEngine.qTable "t" b = -1) ∧
    qRead negativeEngine.qTable "s" Action.up = -1 ∧
    negativeEngine.learningRate = 1 / 10 ∧
    negativeEngine.discountFactor = 9 / 10 ∧
    qRead negativeEngine.qTable "s" Action.up +
      negativeEngine.learningRate *
        (0 + negativeEngine.discountFactor * (-1) - qRead negativeEngine.qTable "s" Action.up) =
      -(99 / 100) ∧
    qRead (updateQValue negativeEngine "s" Action.up 0 "t").qTable "s" Action.up =
      -(9 / 10) := by
  refine ⟨fun b => ?_, ?_, ?_, ?_, ?_, ?_⟩
  · cases b <;> decide!
  all_goals decide!

end CANDi

namespace CANDi

/-! ## C17 -/

/-- C17, as stated, fails: an engine whose exploration rate is 0 saves the
record with `epsilon: 0`, and loading that record yields the exploration rate
3/10, because `data.epsilon || 0.3` treats the stored 0 as missing. -/
theorem roundtrip_loses_zero_epsilon :
    greedyEngine.epsilon = 0 ∧
    (loadMemory freshEngine (saveMemory greedyEngine)).1.epsilon = 3 / 10 := by
  decide!

/-- C17, amended: for every engine memory whose exploration rate, learning
rate and discount factor are all different from 0, loading the record written
by `saveMemory` (into any engine) reproduces the same value table, episode
counter, exploration rate, learning rate and discount factor, and leaves the
file as written. -/
theorem save_load_roundtrip (ai ai0 : AI) (he : ai.epsilon ≠ 0) (hl : ai.learningRate ≠ 0)
    (hd : ai.discountFactor ≠ 0) :
    (loadMemory ai0 (saveMemory ai)).1.qTable = ai.qTable ∧
    (loadMemory ai0 (saveMemory ai)).1.episodes = ai.episodes ∧
    (loadMemory ai0 (saveMemory ai)).1.epsilon = ai.epsilon ∧
    (loadMemory ai0 (saveMemory ai)).1.learningRate = ai.learningRate ∧
    (loadMemory ai0 (saveMemory ai)).1.discountFactor = ai.discountFactor ∧
    (loadMemory ai0 (saveMemory ai)).2 = saveMemory ai := by
  have hne : ∀ v d : ℚ, v ≠ 0 → orNum (some v) d = v := fun v d hv => by
    simp [orNum, hv]
  simp only [loadMemory, saveMemory, Option.getD_some, hne _ _ he, hne _ _ hl, hne _ _ hd,
    orNum_some_zero, and_self]

/-- Witness of C17 (amended): the engine `trainedEngine`, whose rates 1/5,
1/4 and 1/2, episode counter 7 and one-entry value table all differ from the
defaults, saved and loaded into the fresh engine, which holds the defaults;
the loaded memory is that of `trainedEngine`. -/
theorem save_load_roundtrip_witness :
    trainedEngine.epsilon ≠ 0 ∧ trainedEngine.learningRate ≠ 0 ∧
    trainedEngine.discountFactor ≠ 0 ∧
    freshEngine.qTable = [] ∧ freshEngine.episodes = 0 ∧ freshEngine.epsilon = 3 / 10 ∧
    freshEngine.learningRate = 1 / 10 ∧ freshEngine.discountFactor = 9 / 10 ∧
    (loadMemory freshEngine (saveMemory trainedEngine)).1.qTable =
      [("chaser_target_right_far", [(Action.right, 3 / 2)])] ∧
    (loadMemory freshEngine (saveMemory trainedEngine)).1.episodes = 7 ∧
    (loadMemory freshEngine (saveMemory trainedEngine)).1.epsilon = 1 / 5 ∧
    (loadMemory freshEngine (saveMemory trainedEngine)).1.learningRate = 1 / 4 ∧
    (loadMemory freshEngine (saveMemory trainedEngine)).1.discountFactor = 1 / 2 ∧
    (loadMemory freshEngine (saveMemory trainedEngine)).2 = saveMemory trainedEngine :=
  ⟨by decide!, by decide!, by decide!, by decide!, by decide!, by decide!, by decide!,
   by decide!,
   (save_load_roundtrip trainedEngine freshEngine (by decide!) (by decide!) (by decide!)).1.trans
     (by decide!),
   (save_load_roundtrip trainedEngine freshEngine (by decide!) (by decide!)
     (by decide!)).2.1.trans (by decide!),
   (save_load_roundtrip trainedEngine freshEngine (by decide!) (by decide!)
     (by decide!)).2.2.1.trans (by decide!),
   (save_load_roundtrip trainedEngine freshEngine (by decide!) (by decide!)
     (by decide!)).2.2.2.1.trans (by decide!),
   (save_load_roundtrip trainedEngine freshEngine (by decide!) (by decide!)
     (by decide!)).2.2.2.2.1.trans (by decide!),
   (save_load_roundtrip trainedEngine freshEngine (by decide!) (by decide!)
     (by decide!)).2.2.2.2.2⟩

end CANDi

namespace CANDi

/-! ## C18 -/

theorem sqrtLt_false_iff_real (s d : ℚ) (hd : 0 < d) :
    sqrtLt s d = false ↔ (d : ℝ) ≤ Real.sqrt (s : ℝ) := by
  rw [← not_lt, ← sqrtLt_iff_real s d hd]
  simp

/-- C18: for every AI position, target, role and optional player, `getState`
returns the label `role_direction_distance` followed by a danger suffix where,
with `dx`, `dy` the offsets from the AI to the target: the direction is
`target_right` if `|dx| > |dy|` and `dx > 0`, `target_left` if `|dx| > |dy|`
and `dx <= 0`, otherwise `target_down` if `dy > 0` and `target_up` if
`dy <= 0`; the distance is `close` if the Euclidean distance is below 50,
`medium` if it is at least 50 and below 150, `far` if it is at least 150; and
the suffix is `_danger` exactly when the role is runner, a player is supplied
and the Euclidean distance from the AI to the player is below 100, and empty
otherwise. -/
theorem getState_label (aiPos : Pos) (target : Target) (role : Role) (player : Option Pos) :
    ∃ direction distance danger : String,
      getState aiPos target role player =
        role.name ++ "_" ++ direction ++ "_" ++ distance ++ danger ∧
      (|target.x - aiPos.x| > |target.y - aiPos.y| ∧ target.x - aiPos.x > 0 →
        direction = "target_right") ∧
      (|target.x - aiPos.x| > |target.y - aiPos.y| ∧ target.x - aiPos.x ≤ 0 →
        direction = "target_left") ∧
      (¬ |target.x - aiPos.x| > |target.y - aiPos.y| ∧ target.y - aiPos.y > 0 →
        direction = "target_down") ∧
      (¬ |target.x - aiPos.x| > |target.y - aiPos.y| ∧ target.y - aiPos.y ≤ 0 →
        direction = "target_up") ∧
      (Real.sqrt (((target.x - aiPos.x) * (target.x - aiPos.x) +
          (target.y - aiPos.y) * (target.y - aiPos.y) : ℚ) : ℝ) < 50 →
        distance = "close") ∧
      (50 ≤ Real.sqrt (((target.x - aiPos.x) * (target.x - aiPos.x) +
          (target.y - aiPos.y) * (target.y - aiPos.y) : ℚ) : ℝ) ∧
        Real.sqrt (((target.x - aiPos.x) * (target.x - aiPos.x) +
          (target.y - aiPos.y) * (target.y - aiPos.y) : ℚ) : ℝ) < 150 →
        distance = "medium") ∧
      (150 ≤ Real.sqrt (((target.x - aiPos.x) * (target.x - aiPos.x) +
          (target.y - aiPos.y) * (target.y - aiPos.y) : ℚ) : ℝ) →
        distance = "far") ∧
      ((role = Role.runner ∧ ∃ p : Pos, player = some p ∧
          Real.sqrt ((distSq aiPos.x aiPos.y p.x p.y : ℚ) : ℝ) < 100) →
        danger = "_danger") ∧
      (¬ (role = Role.runner ∧ ∃ p : Pos, player = some p ∧
          Real.sqrt ((distSq aiPos.x aiPos.y p.x p.y : ℚ) : ℝ) < 100) →
        danger = "") := by
  have h50 := sqrtLt_iff_real ((target.x - aiPos.x) * (target.x - aiPos.x) +
    (target.y - aiPos.y) * (target.y - aiPos.y)) 50 (by norm_num)
  have h150 := sqrtLt_iff_real ((target.x - aiPos.x) * (target.x - aiPos.x) +
    (target.y - aiPos.y) * (target.y - aiPos.y)) 150 (by norm_num)
  have h50f := sqrtLt_false_iff_real ((target.x - aiPos.x) * (target.x - aiPos.x) +
    (target.y - aiPos.y) * (target.y - aiPos.y)) 50 (by norm_num)
  have h150f := sqrtLt_false_iff_real ((target.x - aiPos.x) * (target.x - aiPos.x) +
    (target.y - aiPos.y) * (target.y - aiPos.y)) 150 (by norm_num)
  push_cast at h50 h150 h50f h150f
  refine ⟨if |target.x - aiPos.x| > |target.y - aiPos.y| then
      (if target.x - aiPos.x > 0 then "target_right" else "target_left")
    else (if target.y - aiPos.y > 0 then "target_down" else "target_up"),
    if sqrtLt ((target.x - aiPos.x) * (target.x - aiPos.x) +
        (target.y - aiPos.y) * (target.y - aiPos.y)) 50 then "close"
    else if sqrtLt ((target.x - aiPos.x) * (target.x - aiPos.x) +
        (target.y - aiPos.y) * (target.y - aiPos.y)) 150 then "medium"
    else "far",
    match player with
    | some p =>
      if role = Role.runner ∧ sqrtLt (distSq aiPos.x aiPos.y p.x p.y) 100 then "_danger"
      else ""
    | none => "", ?_, ?_, ?_, ?_, ?_, ?_, ?_, ?_, ?_, ?_⟩
  · unfold getState
    cases player with
    | none => simp only [String.append_empty]
    | some p =>
      simp only []
      split_ifs <;> simp only [String.append_empty]
  · intro h; simp only [h.1, h.2, if_true]
  · intro h; simp only [h.1, not_lt.2 h.2, if_true, if_false]
  · intro h; simp only [h.1, h.2, if_true, if_false]
  · intro h; simp only [h.1, not_lt.2 h.2, if_false]
  · intro h
    push_cast at h
    simp only [h50.2 h, if_true]
  · intro h
    push_cast at h
    simp only [h50f.2 h.1, h150.2 h.2, if_true, Bool.false_eq_true, if_false]
  · intro h
    push_cast at h
    have h1 : (50 : ℝ) ≤ Real.sqrt (((target.x : ℝ) - aiPos.x) * ((target.x : ℝ) - aiPos.x) +
        ((target.y : ℝ) - aiPos.y) * ((target.y : ℝ) - aiPos.y)) := by linarith
    simp only [h50f.2 h1, h150f.2 h, Bool.false_eq_true, if_false]
  · rintro ⟨hr, p, hp, hd⟩
    subst hp
    have := (sqrtLt_iff_real (distSq aiPos.x aiPos.y p.x p.y) 100 (by norm_num)).2
      (by exact_mod_cast hd)
    simp only [hr, this, and_self, if_true]
  · intro hn
    cases player with
    | none => rfl
    | some p =>
      simp only []
      rw [if_neg]
      rintro ⟨hr, hd⟩
      exact hn ⟨hr, p, rfl, by
        have := (sqrtLt_iff_real (distSq aiPos.x aiPos.y p.x p.y) 100 (by norm_num)).1 hd
        exact_mod_cast this⟩

end CANDi

namespace CANDi

/-- Witness of C18: the chasing AI at (100, 500) with the player as target at
(700, 500) is in the state `chaser_target_right_far`. -/
theorem getState_label_witness :
    getState { x := 100, y := 500 } { x := 700, y := 500, isPlayer := true } Role.chaser
      (some { x := 700, y := 500 }) = "chaser_target_right_far" := by
  obtain ⟨direction, distance, danger, h, h1, -, -, -, -, -, h7, -, h9⟩ :=
    getState_label { x := 100, y := 500 } { x := 700, y := 500, isPlayer := true } Role.chaser
      (some { x := 700, y := 500 })
  have hdir : direction = "target_right" := h1 ⟨by norm_num, by norm_num⟩
  have hdist : distance = "far" := h7 (by
    rw [Real.le_sqrt' (by norm_num)]
    norm_num)
  have hdanger : danger = "" := h9 (by simp)
  rw [h, hdir, hdist, hdanger]
  decide

end CANDi

namespace CANDi

/-! ## C19 -/

theorem distSq_nonneg (x1 y1 x2 y2 : ℚ) : 0 ≤ distSq x1 y1 x2 y2 := by
  unfold distSq
  nlinarith [mul_self_nonneg (x1 - x2), mul_self_nonneg (y1 - y2)]

/-- Comparing two Euclidean distances is comparing their squares. -/
theorem dist_lt_iff (x1 y1 x2 y2 x3 y3 x4 y4 : ℚ) :
    Real.sqrt ((distSq x1 y1 x2 y2 : ℚ) : ℝ) < Real.sqrt ((distSq x3 y3 x4 y4 : ℚ) : ℝ) ↔
      distSq x1 y1 x2 y2 < distSq x3 y3 x4 y4 := by
  rw [Real.sqrt_lt_sqrt_iff (by exact_mod_cast distSq_nonneg x1 y1 x2 y2)]
  exact_mod_cast Iff.rfl

/-- C19: for every old position, new position, target, role and optional
player, `calculateReward` returns the sum of: for the chaser, +1 if the new
Euclidean distance to the target is strictly smaller than the old one and -1/2
otherwise; for the runner, +1 if the target is not the player and the new
distance to the target is strictly smaller, plus, when a player is supplied,
+1/2 if the new distance to the player is strictly larger than the old one and
-1 otherwise; and, for every role, -2 if the new position has `x <= 0`,
`x >= 800`, `y <= 0` or `y >= 600`. -/
theorem calculateReward_spec (aiPos : Pos) (target : Target) (role : Role)
    (player : Option Pos) (newPos : Pos) :
    calculateReward aiPos target role player newPos =
      (match role with
        | Role.chaser =>
          if Real.sqrt ((distSq newPos.x newPos.y target.x target.y : ℚ) : ℝ) <
              Real.sqrt ((distSq aiPos.x aiPos.y target.x target.y : ℚ) : ℝ) then (1 : ℚ)
          else -(1 / 2)
        | Role.runner =>
          (if ¬ (player.isSome ∧ target.isPlayer = true) ∧
              Real.sqrt ((distSq newPos.x newPos.y target.x target.y : ℚ) : ℝ) <
                Real.sqrt ((distSq aiPos.x aiPos.y target.x target.y : ℚ) : ℝ) then (1 : ℚ)
           else 0) +
          (match player with
            | some p =>
              if Real.sqrt ((distSq newPos.x newPos.y p.x p.y : ℚ) : ℝ) >
                  Real.sqrt ((distSq aiPos.x aiPos.y p.x p.y : ℚ) : ℝ) then (1 / 2 : ℚ)
              else -1
            | none => 0)) +
      (if newPos.x ≤ 0 ∨ newPos.x ≥ 800 ∨ newPos.y ≤ 0 ∨ newPos.y ≥ 600 then (-2 : ℚ)
       else 0) := by
  unfold calculateReward
  cases role <;> cases player <;> simp only [gt_iff_lt, dist_lt_iff]

end CANDi

namespace CANDi

/-! ## C20 -/

theorem actionToMovement_bounds (action : Action) (pos : Pos)
    (hx0 : 0 ≤ pos.x) (hx1 : pos.x ≤ 800) (hy0 : 0 ≤ pos.y) (hy1 : pos.y ≤ 600) :
    0 ≤ (actionToMovement action pos).x ∧ (actionToMovement action pos).x ≤ 800 ∧
    0 ≤ (actionToMovement action pos).y ∧ (actionToMovement action pos).y ≤ 600 := by
  cases action <;> simp only [actionToMovement] <;>
    refine ⟨?_, ?_, ?_, ?_⟩ <;>
    first
      | assumption
      | exact le_max_left _ _
      | exact max_le (by norm_num) (by linarith)
      | exact le_min (by norm_num) (by linarith)
      | exact min_le_left _ _

theorem collectLoop_ai (pos : Pos) (award : World → World)
    (haward : ∀ w, (award w).gameState.ai = w.gameState.ai) :
    ∀ (stars : List Star) (i : Nat) (live : Bool) (w : World) (rnd : Rnd),
      (collectLoop pos award stars i live w rnd).world.gameState.ai = w.gameState.ai := by
  intro stars
  induction stars with
  | nil => intro i live w rnd; rfl
  | cons star rest ih =>
    intro i live w rnd
    by_cases hit : starHit pos star = true
    · simp only [collectLoop, hit, if_true]
      rw [ih, (checkGameEnd_spec _ _).2.2.1, haward]
      cases live <;> rfl
    · simp only [collectLoop, hit, Bool.false_eq_true, if_false]
      exact ih _ _ _ _

theorem playerCollect_ai (w : World) (pos : Pos) (rnd : Rnd) :
    (playerCollect w pos rnd).world.gameState.ai = w.gameState.ai :=
  collectLoop_ai pos awardPlayer (fun _ => rfl) _ _ _ _ _

theorem aiCollect_ai (w : World) (pos : Pos) (rnd : Rnd) :
    (aiCollect w pos rnd).world.gameState.ai = w.gameState.ai :=
  collectLoop_ai pos awardAi (fun _ => rfl) _ _ _ _ _

theorem playerTag_ai (w : World) (p : Avatar) (rnd : Rnd) :
    (playerTag w p rnd).1.gameState.ai = w.gameState.ai := by
  unfold playerTag
  split
  · split_ifs
    · rw [(checkGameEnd_spec _ _).2.2.1]
    · rfl
    · rfl
  · rfl

theorem aiTag_ai (w : World) (p : Avatar) (rnd : Rnd) :
    (aiTag w p rnd).1.gameState.ai = w.gameState.ai := by
  unfold aiTag
  split
  · split_ifs
    · rw [(checkGameEnd_spec _ _).2.2.1]
    · rfl
    · rfl
  · rfl

theorem onPlayerMove_ai (w : World) (id : ConnId) (m : MoveData) (rnd : Rnd) :
    (onPlayerMove w id m rnd).1.gameState.ai = w.gameState.ai := by
  unfold onPlayerMove
  split
  · rfl
  · simp only [World.emit]
    rw [playerTag_ai]
    split_ifs
    · exact playerCollect_ai _ _ _
    · rfl

theorem timerCallback_ai (w : World) (rnd : Rnd) :
    (timerCallback w rnd).1.gameState.ai = w.gameState.ai := by
  unfold timerCallback
  by_cases h : w.gameState.gameActive = true ∧ w.gameState.gameTimer > 0
  · by_cases h2 : w.gameState.gameTimer - 1 ≤ 0
    · simp only [h, h2, and_self, if_true, World.emit]
      rw [(checkGameEnd_spec _ _).2.2.1]
    · simp only [h, h2, and_self, if_true, if_false, World.emit]
  · simp only [h, if_false]

theorem onConnection_ai (w : World) (id : ConnId) (rnd : Rnd) :
    (onConnection w id rnd).1.gameState.ai =
      if w.gameState.gameActive = true then w.gameState.ai
      else some { x := 100, y := 500, width := 30, height := 30 } := by
  unfold onConnection
  cases h : w.gameState.gameActive <;>
    simp [h, World.emit, resetGame, startGameTimer]

theorem aiTick_bounds (w : World) (rnd : Rnd) (now : Nat) (h : aiInBounds w.gameState) :
    aiInBounds (aiTick w rnd now).1.gameState := by
  unfold aiTick
  split
  · rename_i a hact hai
    split
    · exact h
    · rename_i player rest hplayers
      simp only []
      intro b hb
      rw [aiTag_ai] at hb
      have hb2 : some ({ a with
          x := (makeMove w.ai a.pos (selectTarget w.gameState a player) w.gameState.aiRole
            (some player.pos) rnd now).1.x
          y := (makeMove w.ai a.pos (selectTarget w.gameState a player) w.gameState.aiRole
            (some player.pos) rnd now).1.y } : AiAvatar) = some b := by
        rw [← hb]
        split_ifs
        · simp only [aiCollect_ai]
        · rfl
      obtain ⟨ha0, ha1, ha2, ha3⟩ := h a hai
      have hm := actionToMovement_bounds
        (chooseAction w.ai (getState a.pos (selectTarget w.gameState a player)
          w.gameState.aiRole (some player.pos)) rnd).1 a.pos ha0 ha1 ha2 ha3
      cases hb2
      exact hm
  · exact h

theorem step_aiInBounds (w : World) (e : Event) (h : aiInBounds w.gameState) :
    aiInBounds (step w e).gameState := by
  cases e with
  | connect id rnd =>
    intro a ha
    simp only [step, onConnection_ai] at ha
    split_ifs at ha
    · exact h a ha
    · cases ha; norm_num
  | message id msg rnd =>
    cases msg with
    | playerMove m =>
      intro a ha
      simp only [step, onMessage, onPlayerMove_ai] at ha
      exact h a ha
    | disconnect => exact h
    | restartGame => exact h
  | timerTick rnd =>
    intro a ha
    simp only [step] at ha
    split_ifs at ha
    · rw [timerCallback_ai] at ha; exact h a ha
    · exact h a ha
  | aiTick rnd now => exact aiTick_bounds w rnd now h

end CANDi

namespace CANDi

theorem actionToMovement_step (action : Action) (pos : Pos)
    (hx0 : 0 ≤ pos.x) (hx1 : pos.x ≤ 800) (hy0 : 0 ≤ pos.y) (hy1 : pos.y ≤ 600) :
    ((actionToMovement action pos).x = pos.x ∨ (actionToMovement action pos).y = pos.y) ∧
    (action ≠ Action.jump →
      |(actionToMovement action pos).x - pos.x| ≤ 3 ∧
      |(actionToMovement action pos).y - pos.y| ≤ 3) ∧
    (action = Action.jump →
      (actionToMovement action pos).x = pos.x ∧
      (actionToMovement action pos).y ≤ pos.y ∧
      pos.y - (actionToMovement action pos).y ≤ 15) := by
  cases action <;> simp only [actionToMovement, max_def, min_def] <;> split_ifs <;>
    refine ⟨by simp, fun hne => ?_, fun heq => ?_⟩ <;>
    first
      | exact absurd rfl hne
      | exact absurd heq (by decide)
      | (refine ⟨?_, ?_⟩ <;> rw [abs_le] <;> constructor <;> linarith)
      | (refine ⟨?_, ?_, ?_⟩ <;> first | trivial | rfl | linarith)

theorem run_aiInBounds (events : List Event) :
    ∀ w : World, aiInBounds w.gameState → aiInBounds (run w events).gameState := by
  induction events with
  | nil => intro w h; exact h
  | cons e es ih => intro w h; exact ih (step w e) (step_aiInBounds w e h)

/-- C20: in every session state reachable from the initial module state, and
in every state reached by any sequence of events after a `resetGame` in any
state, the AI avatar (when there is one) lies within [0, 800] x [0, 600].
`resetGame` places it at (100, 500), and for every action and every in-bounds
position `actionToMovement` returns an in-bounds position that changes only one
coordinate, by at most 3 for up, down, left and right, and by at most 15,
upward only, for jump. -/
theorem ai_avatar_in_bounds :
    (∀ (w : World) (a : AiAvatar), Reachable w → w.gameState.ai = some a →
      0 ≤ a.x ∧ a.x ≤ 800 ∧ 0 ≤ a.y ∧ a.y ≤ 600) ∧
    (∀ (w0 : World) (rnd : Rnd) (events : List Event) (a : AiAvatar),
      (run (resetGame w0 rnd).1 events).gameState.ai = some a →
      0 ≤ a.x ∧ a.x ≤ 800 ∧ 0 ≤ a.y ∧ a.y ≤ 600) ∧
    (∀ (w0 : World) (rnd : Rnd),
      (resetGame w0 rnd).1.gameState.ai =
        some { x := 100, y := 500, width := 30, height := 30 }) ∧
    (∀ (action : Action) (pos : Pos),
      0 ≤ pos.x → pos.x ≤ 800 → 0 ≤ pos.y → pos.y ≤ 600 →
      (0 ≤ (actionToMovement action pos).x ∧ (actionToMovement action pos).x ≤ 800 ∧
        0 ≤ (actionToMovement action pos).y ∧ (actionToMovement action pos).y ≤ 600) ∧
      ((actionToMovement action pos).x = pos.x ∨ (actionToMovement action pos).y = pos.y) ∧
      (action ≠ Action.jump →
        |(actionToMovement action pos).x - pos.x| ≤ 3 ∧
        |(actionToMovement action pos).y - pos.y| ≤ 3) ∧
      (action = Action.jump →
        (actionToMovement action pos).x = pos.x ∧
        (actionToMovement action pos).y ≤ pos.y ∧
        pos.y - (actionToMovement action pos).y ≤ 15)) := by
  refine ⟨?_, ?_, fun w0 rnd => rfl, ?_⟩
  · intro w a hw
    induction hw generalizing a with
    | init file => intro h; cases h
    | step e _ ih => exact step_aiInBounds _ e (fun b hb => ih b hb) a
  · intro w0 rnd events a
    refine run_aiInBounds events (resetGame w0 rnd).1 ?_ a
    intro b hb
    have hreset : (resetGame w0 rnd).1.gameState.ai =
        some { x := 100, y := 500, width := 30, height := 30 } := rfl
    rw [hreset] at hb
    cases hb
    norm_num
  · intro action pos hx0 hx1 hy0 hy1
    exact ⟨actionToMovement_bounds action pos hx0 hx1 hy0 hy1,
      actionToMovement_step action pos hx0 hx1 hy0 hy1⟩

/-- Witness of C20: at the end of `tagMatch` the AI avatar stands at
(100, 497), and `jump` from (100, 10) lands in bounds. -/
theorem ai_avatar_in_bounds_witness :
    Reachable endedWorld ∧
    endedWorld.gameState.ai = some { x := 100, y := 497, width := 30, height := 30 } ∧
    ((0 : ℚ) ≤ 100 ∧ (100 : ℚ) ≤ 800 ∧ (0 : ℚ) ≤ 497 ∧ (497 : ℚ) ≤ 600) ∧
    (0 ≤ (actionToMovement Action.jump { x := 100, y := 10 }).y ∧
      (actionToMovement Action.jump { x := 100, y := 10 }).y ≤ 600) :=
  ⟨reachable_run (Reachable.init DataFile.absent) tagMatch,
   by decide!,
   ai_avatar_in_bounds.1 endedWorld { x := 100, y := 497, width := 30, height := 30 }
     (reachable_run (Reachable.init DataFile.absent) tagMatch) (by decide!),
   ⟨((ai_avatar_in_bounds.2.2.2 Action.jump { x := 100, y := 10 }
      (by norm_num) (by norm_num) (by norm_num) (by norm_num)).1).2.2.1,
    ((ai_avatar_in_bounds.2.2.2 Action.jump { x := 100, y := 10 }
      (by norm_num) (by norm_num) (by norm_num) (by norm_num)).1).2.2.2⟩⟩

end CANDi

namespace CANDi

/-! ## C21 -/

/-- C21: for every engine state, `decayEpsilon` sets epsilon to
`max (0.1, 0.995 * epsilon)`, increments the episode counter by exactly 1 and
leaves the value table, the learning rate and the discount factor unchanged;
hence epsilon is at least 0.1 after any call, and it does not increase when it
was already at least 0.1. -/
theorem decayEpsilon_spec (ai : AI) :
    (decayEpsilon ai).epsilon = max (1 / 10) ((995 / 1000) * ai.epsilon) ∧
    (decayEpsilon ai).episodes = ai.episodes + 1 ∧
    (decayEpsilon ai).qTable = ai.qTable ∧
    (decayEpsilon ai).learningRate = ai.learningRate ∧
    (decayEpsilon ai).discountFactor = ai.discountFactor ∧
    1 / 10 ≤ (decayEpsilon ai).epsilon ∧
    (1 / 10 ≤ ai.epsilon → (decayEpsilon ai).epsilon ≤ ai.epsilon) := by
  refine ⟨?_, rfl, rfl, rfl, rfl, ?_, ?_⟩
  · simp only [decayEpsilon, mul_comm]
  · exact le_max_left _ _
  · intro h
    simp only [decayEpsilon]
    exact max_le h (by linarith)

/-- Witness of C21: the fresh engine has epsilon 3/10, which decays to
597/2000 and does not increase. -/
theorem decayEpsilon_spec_witness :
    1 / 10 ≤ freshEngine.epsilon ∧
    (decayEpsilon freshEngine).epsilon ≤ freshEngine.epsilon ∧
    (decayEpsilon freshEngine).epsilon = 597 / 2000 :=
  ⟨by decide!, (decayEpsilon_spec freshEngine).2.2.2.2.2.2 (by decide!), by decide!⟩

/-! ## C22 -/

theorem objDelete_eq_filter {κ α : Type} [DecidableEq κ] (l : List (κ × α)) (k : κ) :
    objDelete l k = l.filter (fun p => decide (p.1 ≠ k)) := by
  induction l with
  | nil => rfl
  | cons h t ih =>
    obtain ⟨k1, v1⟩ := h
    by_cases hk : k1 = k
    · simp [objDelete, hk, ih]
    · simp [objDelete, hk, ih]

theorem objGet_objDelete_same {κ α : Type} [DecidableEq κ] (l : List (κ × α)) (k : κ) :
    objGet (objDelete l k) k = none := by
  induction l with
  | nil => rfl
  | cons h t ih =>
    obtain ⟨k1, v1⟩ := h
    by_cases hk : k1 = k
    · simp [objDelete, hk, ih]
    · simp [objDelete, objGet, hk, ih]

theorem objGet_objDelete_other {κ α : Type} [DecidableEq κ] (l : List (κ × α)) (k k2 : κ)
    (hne : k2 ≠ k) : objGet (objDelete l k) k2 = objGet l k2 := by
  induction l with
  | nil => rfl
  | cons h t ih =>
    obtain ⟨k1, v1⟩ := h
    by_cases hk : k1 = k
    · subst hk
      simp [objDelete, objGet, Ne.symm hne, ih]
    · by_cases hk2 : k1 = k2
      · subst hk2
        simp [objDelete, objGet, hk]
      · simp [objDelete, objGet, hk, hk2, ih]

/-- C22: for every session state and connection id, the disconnect handler
removes that connection's avatar from the players mapping, keeps every other
avatar (in the same order), and leaves every other field of the session state
(AI avatar, stars, scores, timer, activity flag, roles) and of the server
unchanged. -/
theorem disconnect_frame (w : World) (id : ConnId) (rnd : Rnd) :
    step w (Event.message id ClientMessage.disconnect rnd) = onDisconnect w id ∧
    objGet (onDisconnect w id).gameState.players id = none ∧
    (∀ id2 : ConnId, id2 ≠ id →
      objGet (onDisconnect w id).gameState.players id2 = objGet w.gameState.players id2) ∧
    (onDisconnect w id).gameState.players =
      w.gameState.players.filter (fun p => decide (p.1 ≠ id)) ∧
    (onDisconnect w id).gameState.ai = w.gameState.ai ∧
    (onDisconnect w id).gameState.stars = w.gameState.stars ∧
    (onDisconnect w id).gameState.scores = w.gameState.scores ∧
    (onDisconnect w id).gameState.gameTimer = w.gameState.gameTimer ∧
    (onDisconnect w id).gameState.gameActive = w.gameState.gameActive ∧
    (onDisconnect w id).gameState.playerRole = w.gameState.playerRole ∧
    (onDisconnect w id).gameState.aiRole = w.gameState.aiRole ∧
    (onDisconnect w id).gameInterval = w.gameInterval ∧
    (onDisconnect w id).ai = w.ai ∧
    (onDisconnect w id).dataFile = w.dataFile ∧
    (onDisconnect w id).out = w.out :=
  ⟨rfl, objGet_objDelete_same _ _, fun _ hne => objGet_objDelete_other _ _ _ hne,
   objDelete_eq_filter _ _, rfl, rfl, rfl, rfl, rfl, rfl, rfl, rfl, rfl, rfl, rfl⟩

/-- Witness of C22: player 0 disconnects at the end of `tagMatch`; another
connection id keeps whatever it had. -/
theorem disconnect_frame_witness :
    objGet (onDisconnect endedWorld 0).gameState.players 0 = none ∧
    objGet (onDisconnect endedWorld 0).gameState.players 1 =
      objGet endedWorld.gameState.players 1 ∧
    (onDisconnect endedWorld 0).gameState.scores = { player := 0, ai := 100 } :=
  ⟨(disconnect_frame endedWorld 0 zeroDraws).2.1,
   (disconnect_frame endedWorld 0 zeroDraws).2.2.1 1 (by decide),
   by decide!⟩

/-! ## C23 -/

/-- C23: in every session state with the player runner, both scores below 10
and the player score or the AI score equal to exactly 5, `checkGameEnd` makes
the player chaser and the AI runner, sets the timer to 30, replaces the stars
by 3 uncollected stars, emits one `roleSwitch` notification and nothing else,
and leaves both scores, the players, the AI avatar and the activity flag
unchanged. -/
theorem checkGameEnd_role_switch (w : World) (rnd : Rnd)
    (hrole : w.gameState.playerRole = Role.runner)
    (hp : w.gameState.scores.player < 10) (ha : w.gameState.scores.ai < 10)
    (h5 : w.gameState.scores.player = 5 ∨ w.gameState.scores.ai = 5) :
    (checkGameEnd w rnd).1.gameState.playerRole = Role.chaser ∧
    (checkGameEnd w rnd).1.gameState.aiRole = Role.runner ∧
    (checkGameEnd w rnd).1.gameState.gameTimer = 30 ∧
    (checkGameEnd w rnd).1.gameState.stars.length = 3 ∧
    (∀ s ∈ (checkGameEnd w rnd).1.gameState.stars, s.collected = false) ∧
    (checkGameEnd w rnd).1.gameState.stars = (generateStars 3 rnd).1 ∧
    (checkGameEnd w rnd).1.gameState.scores = w.gameState.scores ∧
    (checkGameEnd w rnd).1.gameState.players = w.gameState.players ∧
    (checkGameEnd w rnd).1.gameState.ai = w.gameState.ai ∧
    (checkGameEnd w rnd).1.gameState.gameActive = w.gameState.gameActive ∧
    (checkGameEnd w rnd).1.out = w.out ++ [Emit.roleSwitch Role.chaser Role.runner] := by
  obtain ⟨hs, hpl, hai, -, hpr, har, hact, ht, hst, -, ho⟩ := checkGameEnd_spec w rnd
  have hdue : roleSwitchDue w.gameState = true := (roleSwitchDue_iff _).2 ⟨hrole, h5⟩
  have hend : gameEndDue w.gameState = false := by
    simp only [gameEndDue, Bool.or_eq_false_iff, decide_eq_false_iff_not, not_le]
    exact ⟨hp, ha⟩
  simp only [hdue, if_true] at hpr har ht hst
  simp only [hend, Bool.false_eq_true, if_false] at hact
  refine ⟨hpr, har, ht, ?_, ?_, hst, hs, hpl, hai, hact, ?_⟩
  · rw [hst, generateStars_three]; rfl
  · intro s hs2
    rw [hst, generateStars_three] at hs2
    simp only [List.mem_cons, List.mem_singleton, List.not_mem_nil, or_false] at hs2
    rcases hs2 with rfl | rfl | rfl <;> rfl
  · rw [ho]
    simp [checkGameEndEmits, hdue, hend]

/-- Witness of C23: the player, runner, has just reached 5 points. -/
theorem checkGameEnd_role_switch_witness :
    fivePointWorld.gameState.playerRole = Role.runner ∧
    fivePointWorld.gameState.scores.player = 5 ∧
    (checkGameEnd fivePointWorld zeroDraws).1.gameState.playerRole = Role.chaser ∧
    (checkGameEnd fivePointWorld zeroDraws).1.gameState.gameTimer = 30 ∧
    (checkGameEnd fivePointWorld zeroDraws).1.gameState.scores = { player := 5, ai := 0 } :=
  ⟨rfl, rfl,
   (checkGameEnd_role_switch fivePointWorld zeroDraws rfl (by decide) (by decide)
     (Or.inl rfl)).1,
   (checkGameEnd_role_switch fivePointWorld zeroDraws rfl (by decide) (by decide)
     (Or.inl rfl)).2.2.1,
   (checkGameEnd_role_switch fivePointWorld zeroDraws rfl (by decide) (by decide)
     (Or.inl rfl)).2.2.2.2.2.2.1⟩

end CANDi

namespace CANDi

/-! ## C24 -/

theorem foldl_closerStar (a : AiAvatar) :
    ∀ (rest : List Star) (cur : Star) (pre0 mid : List Star),
      (∀ s ∈ pre0, distSq a.x a.y cur.x cur.y < distSq a.x a.y s.x s.y) →
      (∀ s ∈ mid, distSq a.x a.y cur.x cur.y ≤ distSq a.x a.y s.x s.y) →
      ∃ pre post : List Star,
        (pre0 ++ cur :: mid) ++ rest = pre ++ rest.foldl (closerStar a) cur :: post ∧
        (∀ s ∈ pre, distSq a.x a.y (rest.foldl (closerStar a) cur).x
            (rest.foldl (closerStar a) cur).y < distSq a.x a.y s.x s.y) ∧
        (∀ s ∈ post, distSq a.x a.y (rest.foldl (closerStar a) cur).x
            (rest.foldl (closerStar a) cur).y ≤ distSq a.x a.y s.x s.y) := by
  intro rest
  induction rest with
  | nil =>
    intro cur pre0 mid hpre hmid
    exact ⟨pre0, mid, by simp, hpre, hmid⟩
  | cons x xs ih =>
    intro cur pre0 mid hpre hmid
    simp only [List.foldl_cons]
    by_cases hlt : distSq a.x a.y x.x x.y < distSq a.x a.y cur.x cur.y
    · have hc : closerStar a cur x = x := by simp [closerStar, hlt]
      rw [hc]
      obtain ⟨pre, post, heq, h1, h2⟩ := ih x (pre0 ++ cur :: mid) [] (by
        intro s hs
        rcases List.mem_append.1 hs with hs | hs
        · exact lt_trans hlt (hpre s hs)
        · rcases List.mem_cons.1 hs with rfl | hs
          · exact hlt
          · exact lt_of_lt_of_le hlt (hmid s hs)) (by simp)
      exact ⟨pre, post, by rw [← heq]; simp, h1, h2⟩
    · have hc : closerStar a cur x = cur := by simp [closerStar, hlt]
      rw [hc]
      obtain ⟨pre, post, heq, h1, h2⟩ := ih cur pre0 (mid ++ [x]) hpre (by
        intro s hs
        rcases List.mem_append.1 hs with hs | hs
        · exact hmid s hs
        · rcases List.mem_singleton.1 hs with rfl
          exact not_lt.1 hlt)
      exact ⟨pre, post, by rw [← heq]; simp, h1, h2⟩

theorem dist_le_iff (x1 y1 x2 y2 x3 y3 x4 y4 : ℚ) :
    Real.sqrt ((distSq x1 y1 x2 y2 : ℚ) : ℝ) ≤ Real.sqrt ((distSq x3 y3 x4 y4 : ℚ) : ℝ) ↔
      distSq x1 y1 x2 y2 ≤ distSq x3 y3 x4 y4 := by
  rw [← not_lt, dist_lt_iff, not_lt]

theorem aiTick_ai (w : World) (rnd : Rnd) (now : Nat) (a : AiAvatar) (player : Avatar)
    (others : List Avatar) (hact : w.gameState.gameActive = true)
    (hai : w.gameState.ai = some a)
    (hplayers : objValues w.gameState.players = player :: others) :
    (aiTick w rnd now).1.gameState.ai =
      some { a with
        x := (makeMove w.ai a.pos (selectTarget w.gameState a player) w.gameState.aiRole
          (some player.pos) rnd now).1.x
        y := (makeMove w.ai a.pos (selectTarget w.gameState a player) w.gameState.aiRole
          (some player.pos) rnd now).1.y } := by
  unfold aiTick
  rw [hact, hai]
  simp only [hplayers]
  rw [aiTag_ai]
  split_ifs
  · simp only [aiCollect_ai]
  · rfl

/-- C24: in an AI tick of an active session with an AI avatar and at least
one player connected, the AI avatar moves to the position returned by
`makeMove` for the selected target, the AI role and the first player's avatar.
The target is the first player's avatar when the AI is chaser; when the AI is
runner and some star is uncollected it is an uncollected star such that every
uncollected star before it in sequence order is strictly farther from the AI
avatar (Euclidean distance) and every uncollected star after it is at least as
far; and when the AI is runner and no star is uncollected it is the first
player's avatar. -/
theorem aiTick_target (w : World) (rnd : Rnd) (now : Nat) (a : AiAvatar) (player : Avatar)
    (others : List Avatar) (hact : w.gameState.gameActive = true)
    (hai : w.gameState.ai = some a)
    (hplayers : objValues w.gameState.players = player :: others) :
    (aiTick w rnd now).1.gameState.ai =
      some { a with
        x := (makeMove w.ai a.pos (selectTarget w.gameState a player) w.gameState.aiRole
          (some player.pos) rnd now).1.x
        y := (makeMove w.ai a.pos (selectTarget w.gameState a player) w.gameState.aiRole
          (some player.pos) rnd now).1.y } ∧
    (w.gameState.aiRole = Role.chaser →
      selectTarget w.gameState a player =
        { x := player.x, y := player.y, isPlayer := true }) ∧
    (w.gameState.aiRole = Role.runner →
      (∃ s ∈ w.gameState.stars, s.collected = false) →
      ∃ (pre : List Star) (star : Star) (post : List Star),
        w.gameState.stars.filter (fun s => !s.collected) = pre ++ star :: post ∧
        selectTarget w.gameState a player = { x := star.x, y := star.y, isPlayer := false } ∧
        (∀ s ∈ pre, Real.sqrt ((distSq a.x a.y star.x star.y : ℚ) : ℝ) <
          Real.sqrt ((distSq a.x a.y s.x s.y : ℚ) : ℝ)) ∧
        (∀ s ∈ post, Real.sqrt ((distSq a.x a.y star.x star.y : ℚ) : ℝ) ≤
          Real.sqrt ((distSq a.x a.y s.x s.y : ℚ) : ℝ))) ∧
    (w.gameState.aiRole = Role.runner →
      (∀ s ∈ w.gameState.stars, s.collected = true) →
      selectTarget w.gameState a player =
        { x := player.x, y := player.y, isPlayer := true }) := by
  refine ⟨aiTick_ai w rnd now a player others hact hai hplayers, ?_, ?_, ?_⟩
  · intro hr
    simp [selectTarget, hr]
  · intro hr ⟨s0, hs0, hc0⟩
    have hne : w.gameState.stars.filter (fun s => !s.collected) ≠ [] := by
      intro hnil
      have hmem : s0 ∈ w.gameState.stars.filter (fun s => !s.collected) :=
        List.mem_filter.2 ⟨hs0, by simp [hc0]⟩
      rw [hnil] at hmem
      exact List.not_mem_nil _ hmem
    cases hf : w.gameState.stars.filter (fun s => !s.collected) with
    | nil => exact absurd hf hne
    | cons first rest =>
      obtain ⟨pre, post, heq, h1, h2⟩ := foldl_closerStar a rest first [] []
        (by simp) (by simp)
      refine ⟨pre, rest.foldl (closerStar a) first, post, by simpa using heq, ?_, ?_, ?_⟩
      · simp [selectTarget, hr, hf]
      · intro s hs; exact (dist_lt_iff _ _ _ _ _ _ _ _).2 (h1 s hs)
      · intro s hs; exact (dist_le_iff _ _ _ _ _ _ _ _).2 (h2 s hs)
  · intro hr hall
    have hf : w.gameState.stars.filter (fun s => !s.collected) = [] := by
      rw [List.filter_eq_nil_iff]
      intro s hs
      simp [hall s hs]
    simp [selectTarget, hr, hf]

/-- Witness of C24: the AI is runner at (100, 500); the collected star next to
it is ignored and of the two uncollected stars, both at distance 50, the
earlier one, at (150, 500), is the target. -/
theorem aiTick_target_witness :
    runnerWorld.gameState.aiRole = Role.runner ∧
    (∃ s ∈ runnerWorld.gameState.stars, s.collected = false) ∧
    selectTarget runnerWorld.gameState { x := 100, y := 500, width := 30, height := 30 }
      spawnAvatar = { x := 150, y := 500, isPlayer := false } ∧
    (∃ (pre : List Star) (star : Star) (post : List Star),
      runnerWorld.gameState.stars.filter (fun s => !s.collected) = pre ++ star :: post ∧
      selectTarget runnerWorld.gameState { x := 100, y := 500, width := 30, height := 30 }
        spawnAvatar = { x := star.x, y := star.y, isPlayer := false } ∧
      (∀ s ∈ pre, Real.sqrt ((distSq 100 500 star.x star.y : ℚ) : ℝ) <
        Real.sqrt ((distSq 100 500 s.x s.y : ℚ) : ℝ)) ∧
      (∀ s ∈ post, Real.sqrt ((distSq 100 500 star.x star.y : ℚ) : ℝ) ≤
        Real.sqrt ((distSq 100 500 s.x s.y : ℚ) : ℝ))) :=
  ⟨rfl, ⟨{ id := "star_1", x := 150, y := 500, collected := false }, by decide!, rfl⟩,
   by decide!,
   (aiTick_target runnerWorld zeroDraws 0 { x := 100, y := 500, width := 30, height := 30 }
     spawnAvatar [] rfl rfl rfl).2.2.1 rfl
     ⟨{ id := "star_1", x := 150, y := 500, collected := false }, by decide!, rfl⟩⟩

end CANDi

namespace CANDi

/-! ## C25 -/

theorem analyzePlayerPattern_positions (ai : AI) :
    (analyzePlayerPattern ai).lastPlayerPositions = ai.lastPlayerPositions := by
  unfold analyzePlayerPattern
  split_ifs
  · rfl
  · split <;> rfl

theorem analyzePlayerPattern_patterns (ai : AI) (h : ai.playerPatterns.length ≤ 20) :
    (analyzePlayerPattern ai).playerPatterns.length ≤ 20 := by
  have hpush : ∀ pat : Pattern,
      (if (ai.playerPatterns ++ [pat]).length > 20 then (ai.playerPatterns ++ [pat]).tail
       else ai.playerPatterns ++ [pat]).length ≤ 20 := by
    intro pat
    split_ifs with h2
    · simp only [List.length_tail, List.length_append, List.length_singleton]
      omega
    · exact not_lt.1 h2
  unfold analyzePlayerPattern
  by_cases h3 : ai.lastPlayerPositions.length < 3
  · simp only [h3, if_true]
    exact h
  · simp only [h3, if_false]
    split
    · exact hpush _
    · exact h

theorem recordPlayerPattern_positions (ai : AI) (p : Pos) (now : Nat) :
    (recordPlayerPattern ai p now).lastPlayerPositions =
      if (ai.lastPlayerPositions ++ [toSample (p, now)]).length > maxPatternHistory then
        (ai.lastPlayerPositions ++ [toSample (p, now)]).tail
      else ai.lastPlayerPositions ++ [toSample (p, now)] := by
  unfold recordPlayerPattern
  simp only [toSample]
  split_ifs <;> simp only [analyzePlayerPattern_positions]

theorem recordPlayerPattern_patterns (ai : AI) (p : Pos) (now : Nat)
    (h : ai.playerPatterns.length ≤ 20) :
    (recordPlayerPattern ai p now).playerPatterns.length ≤ 20 := by
  unfold recordPlayerPattern
  simp only []
  split_ifs
  · exact analyzePlayerPattern_patterns _ h
  · exact h
  · exact analyzePlayerPattern_patterns _ h
  · exact h

theorem drop_last_step (l : List Sample) (c : Sample) (rest : List Sample)
    (hl : l.length ≤ 10) :
    ((if (l ++ [c]).length > maxPatternHistory then (l ++ [c]).tail else l ++ [c]).length
        ≤ 10) ∧
    ((if (l ++ [c]).length > maxPatternHistory then (l ++ [c]).tail else l ++ [c]) ++
        rest).drop
      (((if (l ++ [c]).length > maxPatternHistory then (l ++ [c]).tail else l ++ [c]) ++
        rest).length - 10) =
      (l ++ c :: rest).drop ((l ++ c :: rest).length - 10) := by
  by_cases h : (l ++ [c]).length > maxPatternHistory
  · simp only [h, if_true]
    simp only [maxPatternHistory, List.length_append, List.length_singleton] at h
    cases l with
    | nil => simp at h
    | cons x t =>
      simp only [List.length_cons] at hl h
      have ht : t.length = 9 := by omega
      refine ⟨by simp [ht], ?_⟩
      simp only [List.cons_append, List.tail_cons, List.append_assoc, List.singleton_append,
        List.length_cons, List.length_append]
      have hn : t.length + (rest.length + 1) + 1 - 10 =
          (t.length + (rest.length + 1) - 10) + 1 := by omega
      rw [hn, List.drop_succ_cons]
      simp
  · simp only [h, if_false]
    simp only [maxPatternHistory, List.length_append, List.length_singleton, not_lt] at h
    refine ⟨by simpa using h, ?_⟩
    simp

theorem recordAll_traces :
    ∀ (calls : List (Pos × Nat)) (ai : AI),
      ai.lastPlayerPositions.length ≤ 10 → ai.playerPatterns.length ≤ 20 →
      (recordAll ai calls).lastPlayerPositions =
        (ai.lastPlayerPositions ++ calls.map toSample).drop
          ((ai.lastPlayerPositions ++ calls.map toSample).length - 10) ∧
      (recordAll ai calls).playerPatterns.length ≤ 20 := by
  intro calls
  induction calls with
  | nil =>
    intro ai hl hp
    refine ⟨?_, hp⟩
    simp only [recordAll, List.foldl_nil, List.map_nil, List.append_nil]
    have : ai.lastPlayerPositions.length - 10 = 0 := by omega
    rw [this, List.drop_zero]
  | cons c cs ih =>
    intro ai hl hp
    have hstep := drop_last_step ai.lastPlayerPositions (toSample c) (cs.map toSample) hl
    have hpos := recordPlayerPattern_positions ai c.1 c.2
    have hrec : recordAll ai (c :: cs) = recordAll (recordPlayerPattern ai c.1 c.2) cs := rfl
    have ih2 := ih (recordPlayerPattern ai c.1 c.2) (by rw [hpos]; exact hstep.1)
      (recordPlayerPattern_patterns ai c.1 c.2 hp)
    rw [hrec]
    refine ⟨?_, ih2.2⟩
    rw [ih2.1, hpos]
    simpa using hstep.2

/-- C25: after any sequence of `recordPlayerPattern` calls on a freshly
constructed engine, whatever the data file was, the position trace holds at
most 10 entries, and these are exactly the last 10 recorded positions (all of
them when fewer were recorded) in recording order; the pattern-label trace
holds at most 20 labels, each one of moving_left, moving_right, moving_up,
moving_down, horizontal, vertical, random. -/
theorem pattern_traces_bounded (file : DataFile) (calls : List (Pos × Nat)) :
    (recordAll (AI.new file).1 calls).lastPlayerPositions =
      (calls.map toSample).drop (calls.length - 10) ∧
    (recordAll (AI.new file).1 calls).lastPlayerPositions.length ≤ 10 ∧
    (recordAll (AI.new file).1 calls).playerPatterns.length ≤ 20 ∧
    (∀ p ∈ (recordAll (AI.new file).1 calls).playerPatterns,
      p = Pattern.moving_left ∨ p = Pattern.moving_right ∨ p = Pattern.moving_up ∨
      p = Pattern.moving_down ∨ p = Pattern.horizontal ∨ p = Pattern.vertical ∨
      p = Pattern.random) := by
  have hpos : (AI.new file).1.lastPlayerPositions = [] := by
    cases file <;> rfl
  have hpat : (AI.new file).1.playerPatterns = [] := by
    cases file <;> rfl
  have h := recordAll_traces calls (AI.new file).1 (by simp [hpos]) (by simp [hpat])
  rw [hpos] at h
  simp only [List.nil_append, List.length_map] at h
  refine ⟨h.1, ?_, h.2, ?_⟩
  · rw [h.1]
    simp only [List.length_drop, List.length_map]
    omega
  · intro p _
    cases p <;> simp

/-- Witness of C25: after twelve calls on the fresh engine the position trace
holds the last ten positions, x = 2 to x = 11, and ten labels `moving_right`
have been pushed. -/
theorem pattern_traces_bounded_witness :
    (recordAll (AI.new DataFile.absent).1 twelveCalls).lastPlayerPositions =
      (twelveCalls.map toSample).drop (twelveCalls.length - 10) ∧
    (recordAll (AI.new DataFile.absent).1 twelveCalls).lastPlayerPositions.map Sample.x =
      [2, 3, 4, 5, 6, 7, 8, 9, 10, 11] ∧
    (recordAll (AI.new DataFile.absent).1 twelveCalls).playerPatterns =
      List.replicate 10 Pattern.moving_right :=
  ⟨(pattern_traces_bounded DataFile.absent twelveCalls).1, by decide!, by decide!⟩

end CANDi

namespace CANDi

/-! ## C26 -/

theorem timeLeft_nonneg (g : GameState) : 0 ≤ timeLeft g := by
  unfold timeLeft; split_ifs <;> norm_num

theorem stuckState_congr {g g2 : GameState} (h1 : g2.playerRole = g.playerRole)
    (h2 : g2.aiRole = g.aiRole) (h3 : g2.scores = g.scores) (h4 : g2.stars = g.stars)
    (h5 : g2.gameTimer = g.gameTimer) (h : stuckState g) : stuckState g2 := by
  unfold stuckState timeLeft at *
  rw [h1, h2, h3, h4, h5]
  exact h

theorem stuckState_not_due {g : GameState} (h : stuckState g) : roleSwitchDue g = false := by
  obtain ⟨-, -, hp, ha⟩ := h
  have ht := timeLeft_nonneg g
  have hu : (0 : ℤ) ≤ (uncollectedCount g.stars : ℤ) := Int.natCast_nonneg _
  have hp5 : g.scores.player ≠ 5 := by omega
  have ha5 : g.scores.ai ≠ 5 := by omega
  simp [roleSwitchDue, hp5, ha5]

theorem stuckLog_append {a b : List Emit} (ha : stuckLog a) (hb : stuckLog b) :
    stuckLog (a ++ b) := by
  refine ⟨by rw [countRoleSwitch_append, ha.1, hb.1], fun s hs => ?_⟩
  rcases List.mem_append.1 hs with h | h
  · exact ha.2 s h
  · exact hb.2 s h

theorem checkGameEnd_stuck (w : World) (rnd : Rnd) (h : Stuck w) :
    Stuck (checkGameEnd w rnd).1 ∧
    (checkGameEnd w rnd).1.gameState.stars = w.gameState.stars := by
  obtain ⟨hs, -, -, -, hpr, har, -, ht, hst, -, ho⟩ := checkGameEnd_spec w rnd
  have hdue := stuckState_not_due h.1
  simp only [hdue, Bool.false_eq_true, if_false] at hpr har ht hst
  refine ⟨⟨stuckState_congr hpr har hs hst ht h.1, ?_⟩, hst⟩
  rw [ho]
  refine stuckLog_append h.2 ?_
  obtain ⟨-, -, hp, -⟩ := h.1
  have htl := timeLeft_nonneg w.gameState
  have hu : (0 : ℤ) ≤ (uncollectedCount w.gameState.stars : ℤ) := Int.natCast_nonneg _
  have hp10 : ¬ w.gameState.scores.player ≥ 10 := by omega
  unfold checkGameEndEmits
  by_cases hend : gameEndDue w.gameState = true
  · simp [hdue, hend, hp10, stuckLog, countRoleSwitch]
  · simp [hdue, hend, stuckLog, countRoleSwitch]

theorem uncollectedCount_marked (pre rest : List Star) (star : Star)
    (hc : star.collected = false) :
    (uncollectedCount (pre ++ star :: rest) : ℤ) =
      (uncollectedCount (pre ++ { star with collected := true } :: rest) : ℤ) + 1 := by
  simp only [uncollectedCount, List.countP_append, List.countP_cons, hc]
  push_cast
  simp
  ring

theorem award_mark_stuck (pos : Pos) (w : World) (pre rest : List Star) (star : Star)
    (hstars : w.gameState.stars = pre ++ star :: rest) (hit : starHit pos star = true)
    (h : Stuck w) :
    Stuck (awardPlayer
      { w with gameState :=
          { w.gameState with stars := markCollected w.gameState.stars pre.length } }) ∧
    (awardPlayer
      { w with gameState :=
          { w.gameState with stars := markCollected w.gameState.stars pre.length } }).gameState.stars
      = pre ++ { star with collected := true } :: rest := by
  have hc : star.collected = false := by
    rw [starHit_eq] at hit
    simp only [Bool.and_eq_true, Bool.not_eq_true_eq_eq_false] at hit
    exact hit.1
  have hst : markCollected w.gameState.stars pre.length =
      pre ++ { star with collected := true } :: rest := by
    rw [hstars, markCollected_append]
  obtain ⟨⟨h1, h2, h3, h4⟩, hlog⟩ := h
  rw [hstars, uncollectedCount_marked pre rest star hc] at h3
  refine ⟨⟨⟨h1, h2, ?_, h4⟩, hlog⟩, hst⟩
  simp only [awardPlayer, hst, timeLeft] at h3 ⊢
  linarith

theorem collectLoop_stuck (pos : Pos) :
    ∀ (rest pre : List Star) (i : Nat) (w : World) (rnd : Rnd),
      i = pre.length → w.gameState.stars = pre ++ rest → Stuck w →
      Stuck (collectLoop pos awardPlayer rest i true w rnd).world := by
  intro rest
  induction rest with
  | nil => intro pre i w rnd _ _ h; exact h
  | cons star rest ih =>
    intro pre i w rnd hi hstars h
    subst hi
    by_cases hit : starHit pos star = true
    · obtain ⟨hst2, hstars2⟩ := award_mark_stuck pos w pre rest star hstars hit h
      have hdue := stuckState_not_due hst2.1
      obtain ⟨hst3, hstars3⟩ := checkGameEnd_stuck _ rnd hst2
      simp only [collectLoop, hit, if_true, hdue, Bool.not_false, Bool.and_true]
      refine ih (pre ++ [{ star with collected := true }]) _ _ _ (by simp) ?_ hst3
      rw [hstars3, hstars2]
      simp
    · simp only [collectLoop, hit, Bool.false_eq_true, if_false]
      exact ih (pre ++ [star]) _ _ _ (by simp) (by rw [hstars]; simp) h

theorem Stuck_emit (w : World) (e : Emit) (h : Stuck w) (he : stuckLog [e]) :
    Stuck (w.emit e) :=
  ⟨h.1, stuckLog_append h.2 he⟩

theorem stuckLog_gameState (g : GameState) : stuckLog [Emit.gameState g] := by
  simp [stuckLog, countRoleSwitch]

theorem playerTag_stuck (w : World) (p : Avatar) (rnd : Rnd) (h : Stuck w) :
    Stuck (playerTag w p rnd).1 := by
  unfold playerTag
  split
  · have hne : ¬ w.gameState.playerRole = Role.chaser := by
      rw [h.1.1]; decide
    simp only [hne, if_false]
    exact h
  · exact h

theorem aiTag_stuck (w : World) (p : Avatar) (rnd : Rnd) (h : Stuck w) :
    Stuck (aiTag w p rnd).1 := by
  unfold aiTag
  split
  · split_ifs
    · refine (checkGameEnd_stuck _ rnd ?_).1
      obtain ⟨⟨h1, h2, h3, h4⟩, hlog⟩ := h
      refine ⟨⟨h1, h2, h3, Or.inr ?_⟩, hlog⟩
      show 100 ≤ w.gameState.scores.ai + 100
      have ht := timeLeft_nonneg w.gameState
      omega
    · exact h
    · exact h
  · exact h

theorem onPlayerMove_stuck (w : World) (id : ConnId) (m : MoveData) (rnd : Rnd)
    (h : Stuck w) : Stuck (onPlayerMove w id m rnd).1 := by
  unfold onPlayerMove
  split
  · exact h
  · simp only []
    refine Stuck_emit _ _ (playerTag_stuck _ _ _ ?_) (stuckLog_gameState _)
    split_ifs
    · exact collectLoop_stuck _ _ [] 0 _ _ rfl rfl h
    · exact h

theorem timerCallback_stuck (w : World) (rnd : Rnd) (h : Stuck w) :
    Stuck (timerCallback w rnd).1 := by
  unfold timerCallback
  by_cases hc : w.gameState.gameActive = true ∧ w.gameState.gameTimer > 0
  · obtain ⟨⟨h1, h2, h3, h4⟩, hlog⟩ := h
    have htl : timeLeft w.gameState = 1 := by simp [timeLeft, hc.2]
    rw [htl] at h3 h4
    by_cases h2c : w.gameState.gameTimer - 1 ≤ 0
    · simp only [hc, h2c, and_self, if_true]
      refine Stuck_emit _ _ (checkGameEnd_stuck _ rnd ?_).1 (stuckLog_gameState _)
      have ht0 : ¬ (w.gameState.gameTimer - 1 > 0) := not_lt.2 h2c
      refine ⟨⟨h1, h2, ?_, ?_⟩, hlog⟩
      · simp only [timeLeft, ht0, if_false]
        linarith
      · simp only [timeLeft, ht0, if_false]
        rcases h4 with h4 | h4
        · left; constructor <;> linarith
        · right; linarith
    · simp only [hc, h2c, and_self, if_true, if_false]
      refine Stuck_emit _ _ ?_ (stuckLog_gameState _)
      have ht1 : w.gameState.gameTimer - 1 > 0 := not_le.1 h2c
      refine ⟨⟨h1, h2, ?_, ?_⟩, hlog⟩
      · simp only [timeLeft, ht1, if_true]
        exact h3
      · simp only [timeLeft, ht1, if_true]
        exact h4
  · simp only [hc, if_false]
    exact h

theorem onConnection_stuck (w : World) (id : ConnId) (rnd : Rnd) (h : Stuck w) :
    Stuck (onConnection w id rnd).1 := by
  have hlog : stuckLog (onConnection w id rnd).1.out := by
    have ho : (onConnection w id rnd).1.out =
        w.out ++ [Emit.gameStateTo id (onConnection w id rnd).1.gameState, Emit.playerId id] := by
      unfold onConnection
      cases hact : w.gameState.gameActive <;>
        simp [hact, World.emit, resetGame, startGameTimer]
    rw [ho]
    exact stuckLog_append h.2 (by simp [stuckLog, countRoleSwitch])
  refine ⟨?_, hlog⟩
  cases hact : w.gameState.gameActive
  · rw [onConnection_inactive w id rnd hact, generateStars_three]
    refine ⟨rfl, rfl, ?_, Or.inl ⟨?_, ?_⟩⟩ <;>
      simp [uncollectedCount, timeLeft]
  · have hg : (onConnection w id rnd).1.gameState =
        { w.gameState with players := objSet w.gameState.players id spawnAvatar } := by
      simp [onConnection, hact, World.emit]
    rw [hg]
    exact h.1

theorem aiTick_stuck (w : World) (rnd : Rnd) (now : Nat) (h : Stuck w) :
    Stuck (aiTick w rnd now).1 := by
  unfold aiTick
  split
  · split
    · exact h
    · simp only []
      refine aiTag_stuck _ _ _ ?_
      split_ifs with hr
      · have hbad : Role.chaser = Role.runner := h.1.2.1.symm.trans hr
        cases hbad
      · exact h
  · exact h

theorem step_stuck (w : World) (e : Event) (h : Stuck w) : Stuck (step w e) := by
  cases e with
  | connect id rnd => exact onConnection_stuck w id rnd h
  | message id msg rnd =>
    cases msg with
    | playerMove m => exact onPlayerMove_stuck w id m rnd h
    | disconnect => exact h
    | restartGame => exact h
  | timerTick rnd =>
    simp only [step]
    split_ifs
    · exact timerCallback_stuck w rnd h
    · exact h
  | aiTick rnd now => exact aiTick_stuck w rnd now h

theorem reachable_stuck (w : World) (h : Reachable w) : Stuck w := by
  induction h with
  | init file =>
    refine ⟨⟨rfl, rfl, ?_, Or.inl ⟨?_, ?_⟩⟩, ?_⟩ <;>
      simp [World.init, uncollectedCount, timeLeft, stuckLog, countRoleSwitch]
  | step e _ ih => exact step_stuck _ e ih

/-- C26: in every session state reachable from the initial module state
through any sequence of connect, disconnect, playerMove (with arbitrary
reported positions), restartGame, timer-tick and AI-tick events, the player is
runner, the player score is at most 4 and the AI score is not 5; indeed the
player score plus the number of uncollected stars plus 1 while `gameTimer > 0`
is at most 4. Hence no role switch is due, no `roleSwitch` has ever been
emitted and every `gameEnd` emitted names the AI the winner. The invariant
`Stuck` behind this (these bounds, the AI being chaser with a score of 0, of 1
once the countdown has run out, or of at least 100) is preserved by every
event, from any state. -/
theorem role_switch_unreachable :
    (∀ w : World, Reachable w →
      w.gameState.playerRole = Role.runner ∧
      w.gameState.scores.player ≤ 4 ∧
      w.gameState.scores.ai ≠ 5 ∧
      w.gameState.scores.player +
        ((w.gameState.stars.countP (fun s => !s.collected) : ℕ) : ℤ) +
        (if w.gameState.gameTimer > 0 then 1 else 0) ≤ 4 ∧
      roleSwitchDue w.gameState = false ∧
      countRoleSwitch w.out = 0 ∧
      (∀ (winner : Winner) (scores : Scores),
        Emit.gameEnd winner scores ∈ w.out → winner = Winner.ai)) ∧
    (∀ (w : World) (e : Event), Stuck w → Stuck (step w e)) := by
  refine ⟨fun w hw => ?_, step_stuck⟩
  have h := reachable_stuck w hw
  have hdue := stuckState_not_due h.1
  obtain ⟨⟨h1, -, h3, h4⟩, hlog⟩ := h
  have ht := timeLeft_nonneg w.gameState
  have hu : (0 : ℤ) ≤ (uncollectedCount w.gameState.stars : ℤ) := Int.natCast_nonneg _
  refine ⟨h1, by omega, by omega, ?_, hdue, hlog.1, ?_⟩
  · simpa [uncollectedCount, timeLeft] using h3
  · intro winner scores hmem
    cases winner with
    | player => exact absurd hmem (hlog.2 scores)
    | ai => rfl

/-- Witness of C26: the state at the end of `tagMatch` is reachable; the
player score is 0, the AI score 100, and the one `gameEnd` of its log names
the AI. -/
theorem role_switch_unreachable_witness :
    Reachable endedWorld ∧
    endedWorld.gameState.playerRole = Role.runner ∧
    endedWorld.gameState.scores.player ≤ 4 ∧
    endedWorld.gameState.scores.ai ≠ 5 ∧
    Emit.gameEnd Winner.ai { player := 0, ai := 100 } ∈ endedWorld.out ∧
    (∀ (winner : Winner) (scores : Scores),
      Emit.gameEnd winner scores ∈ endedWorld.out → winner = Winner.ai) :=
  ⟨reachable_run (Reachable.init DataFile.absent) tagMatch,
   (role_switch_unreachable.1 endedWorld
     (reachable_run (Reachable.init DataFile.absent) tagMatch)).1,
   (role_switch_unreachable.1 endedWorld
     (reachable_run (Reachable.init DataFile.absent) tagMatch)).2.1,
   (role_switch_unreachable.1 endedWorld
     (reachable_run (Reachable.init DataFile.absent) tagMatch)).2.2.1,
   by decide!,
   (role_switch_unreachable.1 endedWorld
     (reachable_run (Reachable.init DataFile.absent) tagMatch)).2.2.2.2.2.2⟩

end CANDi

namespace CANDi

/-! ## C4 -/

theorem endLog_append {a b : List Emit} (ha : endLog a) (hb : endLog b) :
    endLog (a ++ b) := by
  intro winner scores hmem
  rcases List.mem_append.1 hmem with h | h
  · exact ha winner scores h
  · exact hb winner scores h

theorem endLog_gameState (g : GameState) : endLog [Emit.gameState g] := by
  intro winner scores hmem
  simp at hmem

theorem stuck_due_winner {g : GameState} (h : stuckState g)
    (hdue : g.scores.player ≥ 10 ∨ g.scores.ai ≥ 10) :
    g.scores.player < g.scores.ai ∧
    (if g.scores.player ≥ 10 then Winner.player else Winner.ai) = higherSide g.scores := by
  obtain ⟨-, -, hp, -⟩ := h
  have ht := timeLeft_nonneg g
  have hu : (0 : ℤ) ≤ (uncollectedCount g.stars : ℤ) := Int.natCast_nonneg _
  have hp10 : ¬ g.scores.player ≥ 10 := by omega
  have hlt : g.scores.player < g.scores.ai := by omega
  refine ⟨hlt, ?_⟩
  simp [higherSide, hp10, hlt]

theorem checkGameEnd_endLog (w : World) (rnd : Rnd) (h : Stuck w) (hl : endLog w.out) :
    endLog (checkGameEnd w rnd).1.out := by
  rw [(checkGameEnd_spec w rnd).2.2.2.2.2.2.2.2.2.2]
  refine endLog_append hl ?_
  have hdue := stuckState_not_due h.1
  intro winner scores hmem
  unfold checkGameEndEmits at hmem
  by_cases hend : gameEndDue w.gameState = true
  · simp only [hdue, Bool.false_eq_true, if_false, hend, if_true, List.nil_append,
      List.mem_singleton, Emit.gameEnd.injEq] at hmem
    have hd : w.gameState.scores.player ≥ 10 ∨ w.gameState.scores.ai ≥ 10 := by
      simpa [gameEndDue] using hend
    obtain ⟨hw, hs⟩ := hmem
    rw [hw, hs]
    exact ⟨(stuck_due_winner h.1 hd).2, hd⟩
  · simp [hdue, hend] at hmem

theorem collectLoop_endLog (pos : Pos) :
    ∀ (rest pre : List Star) (i : Nat) (w : World) (rnd : Rnd),
      i = pre.length → w.gameState.stars = pre ++ rest → Stuck w → endLog w.out →
      endLog (collectLoop pos awardPlayer rest i true w rnd).world.out := by
  intro rest
  induction rest with
  | nil => intro pre i w rnd _ _ _ hl; exact hl
  | cons star rest ih =>
    intro pre i w rnd hi hstars h hl
    subst hi
    by_cases hit : starHit pos star = true
    · obtain ⟨hst2, hstars2⟩ := award_mark_stuck pos w pre rest star hstars hit h
      have hdue := stuckState_not_due hst2.1
      obtain ⟨hst3, hstars3⟩ := checkGameEnd_stuck _ rnd hst2
      have hl3 := checkGameEnd_endLog _ rnd hst2 hl
      simp only [collectLoop, hit, if_true, hdue, Bool.not_false, Bool.and_true]
      refine ih (pre ++ [{ star with collected := true }]) _ _ _ (by simp) ?_ hst3 hl3
      rw [hstars3, hstars2]
      simp
    · simp only [collectLoop, hit, Bool.false_eq_true, if_false]
      exact ih (pre ++ [star]) _ _ _ (by simp) (by rw [hstars]; simp) h hl

theorem playerTag_runner (w : World) (p : Avatar) (rnd : Rnd) (h : Stuck w) :
    (playerTag w p rnd).1 = w := by
  unfold playerTag
  split
  · have hne : ¬ w.gameState.playerRole = Role.chaser := by
      rw [h.1.1]; decide
    simp only [hne, if_false]
  · rfl

theorem aiTag_endLog (w : World) (p : Avatar) (rnd : Rnd) (h : Stuck w)
    (hl : endLog w.out) : endLog (aiTag w p rnd).1.out := by
  unfold aiTag
  split
  · split_ifs
    · refine checkGameEnd_endLog _ rnd ?_ hl
      obtain ⟨⟨h1, h2, h3, h4⟩, hlog⟩ := h
      refine ⟨⟨h1, h2, h3, Or.inr ?_⟩, hlog⟩
      show 100 ≤ w.gameState.scores.ai + 100
      have ht := timeLeft_nonneg w.gameState
      omega
    · exact hl
    · exact hl
  · exact hl

theorem onPlayerMove_endLog (w : World) (id : ConnId) (m : MoveData) (rnd : Rnd)
    (h : Stuck w) (hl : endLog w.out) : endLog (onPlayerMove w id m rnd).1.out := by
  unfold onPlayerMove
  split
  · exact hl
  · simp only []
    refine endLog_append ?_ (endLog_gameState _)
    rw [playerTag_runner]
    · split_ifs
      · exact collectLoop_endLog _ _ [] 0 _ _ rfl rfl h hl
      · exact hl
    · split_ifs
      · exact collectLoop_stuck _ _ [] 0 _ _ rfl rfl h
      · exact h

theorem timerCallback_endLog (w : World) (rnd : Rnd) (h : Stuck w) (hl : endLog w.out) :
    endLog (timerCallback w rnd).1.out := by
  unfold timerCallback
  by_cases hc : w.gameState.gameActive = true ∧ w.gameState.gameTimer > 0
  · obtain ⟨⟨h1, h2, h3, h4⟩, hlog⟩ := h
    have htl : timeLeft w.gameState = 1 := by simp [timeLeft, hc.2]
    rw [htl] at h3 h4
    by_cases h2c : w.gameState.gameTimer - 1 ≤ 0
    · simp only [hc, h2c, and_self, if_true]
      refine endLog_append (checkGameEnd_endLog _ rnd ?_ hl) (endLog_gameState _)
      have ht0 : ¬ (w.gameState.gameTimer - 1 > 0) := not_lt.2 h2c
      refine ⟨⟨h1, h2, ?_, ?_⟩, hlog⟩
      · simp only [timeLeft, ht0, if_false]
        linarith
      · simp only [timeLeft, ht0, if_false]
        rcases h4 with h4 | h4
        · left; constructor <;> linarith
        · right; linarith
    · simp only [hc, h2c, and_self, if_true, if_false]
      exact endLog_append hl (endLog_gameState _)
  · simp only [hc, if_false]
    exact hl

theorem onConnection_endLog (w : World) (id : ConnId) (rnd : Rnd) (hl : endLog w.out) :
    endLog (onConnection w id rnd).1.out := by
  have ho : (onConnection w id rnd).1.out =
      w.out ++ [Emit.gameStateTo id (onConnection w id rnd).1.gameState, Emit.playerId id] := by
    unfold onConnection
    cases hact : w.gameState.gameActive <;>
      simp [hact, World.emit, resetGame, startGameTimer]
  rw [ho]
  refine endLog_append hl ?_
  intro winner scores hmem
  simp at hmem

theorem aiTick_endLog (w : World) (rnd : Rnd) (now : Nat) (h : Stuck w)
    (hl : endLog w.out) : endLog (aiTick w rnd now).1.out := by
  unfold aiTick
  split
  · split
    · exact hl
    · simp only []
      split_ifs with hr
      · have hbad : Role.chaser = Role.runner := h.1.2.1.symm.trans hr
        cases hbad
      · exact aiTag_endLog _ _ _ h hl
  · exact hl

theorem step_endLog (w : World) (e : Event) (h : Stuck w) (hl : endLog w.out) :
    endLog (step w e).out := by
  cases e with
  | connect id rnd => exact onConnection_endLog w id rnd hl
  | message id msg rnd =>
    cases msg with
    | playerMove m => exact onPlayerMove_endLog w id m rnd h hl
    | disconnect => exact hl
    | restartGame => exact hl
  | timerTick rnd =>
    simp only [step]
    split_ifs
    · exact timerCallback_endLog w rnd h hl
    · exact hl
  | aiTick rnd now => exact aiTick_endLog w rnd now h hl

theorem reachable_endLog (w : World) (h : Reachable w) : endLog w.out := by
  induction h with
  | init file =>
    intro winner scores hmem
    simp [World.init] at hmem
  | @step w0 e hr ih => exact step_endLog _ e (reachable_stuck _ hr) ih

/-- C4: when `checkGameEnd` finds a score of at least 10, the `gameEnd` it
emits names the side with the strictly higher score (`higherSide`: the AI when
its score is strictly higher, the player otherwise, so the player when the two
are equal). This holds in every state in which the code can call it: in every
state that satisfies the invariant `Stuck`, which every event preserves, and so
in every state reachable from the initial module state, where a due match end
in fact always has the AI strictly ahead; and every `gameEnd` in the log of a
reachable state carries scores of which one is at least 10 and names the side
with the strictly higher of them. -/
theorem checkGameEnd_declares_higher_side :
    (∀ (w : World) (rnd : Rnd), Stuck w →
      (w.gameState.scores.player ≥ 10 ∨ w.gameState.scores.ai ≥ 10) →
      (checkGameEnd w rnd).1.out.getLast? =
        some (Emit.gameEnd (higherSide w.gameState.scores) w.gameState.scores) ∧
      w.gameState.scores.player < w.gameState.scores.ai) ∧
    (∀ (w : World) (rnd : Rnd), Reachable w →
      (w.gameState.scores.player ≥ 10 ∨ w.gameState.scores.ai ≥ 10) →
      (checkGameEnd w rnd).1.out.getLast? =
        some (Emit.gameEnd (higherSide w.gameState.scores) w.gameState.scores)) ∧
    (∀ w : World, Reachable w →
      ∀ (winner : Winner) (scores : Scores), Emit.gameEnd winner scores ∈ w.out →
        winner = higherSide scores ∧ (scores.player ≥ 10 ∨ scores.ai ≥ 10)) := by
  have key : ∀ (w : World) (rnd : Rnd), Stuck w →
      (w.gameState.scores.player ≥ 10 ∨ w.gameState.scores.ai ≥ 10) →
      (checkGameEnd w rnd).1.out.getLast? =
        some (Emit.gameEnd (higherSide w.gameState.scores) w.gameState.scores) ∧
      w.gameState.scores.player < w.gameState.scores.ai := by
    intro w rnd h hdue
    obtain ⟨hlt, hw⟩ := stuck_due_winner h.1 hdue
    refine ⟨?_, hlt⟩
    rw [(checkGameEnd_winner w rnd hdue).1, hw]
  exact ⟨key, fun w rnd hr hdue => (key w rnd (reachable_stuck w hr) hdue).1,
    fun w hr => reachable_endLog w hr⟩

/-- Witness of C4 at the end of `tagMatch`, a reachable state with the scores
0 : 100: a further `checkGameEnd` there emits `gameEnd` naming the AI, the side
with the higher score, and so does the `gameEnd` already in the log. -/
theorem checkGameEnd_declares_higher_side_witness :
    Reachable endedWorld ∧
    (endedWorld.gameState.scores.player ≥ 10 ∨ endedWorld.gameState.scores.ai ≥ 10) ∧
    (checkGameEnd endedWorld zeroDraws).1.out.getLast? =
      some (Emit.gameEnd (higherSide endedWorld.gameState.scores)
        endedWorld.gameState.scores) ∧
    higherSide endedWorld.gameState.scores = Winner.ai ∧
    endedWorld.gameState.scores.player < endedWorld.gameState.scores.ai ∧
    Emit.gameEnd Winner.ai { player := 0, ai := 100 } ∈ endedWorld.out ∧
    Winner.ai = higherSide { player := 0, ai := 100 } :=
  ⟨reachable_run (Reachable.init DataFile.absent) tagMatch,
   by decide!,
   checkGameEnd_declares_higher_side.2.1 endedWorld zeroDraws
     (reachable_run (Reachable.init DataFile.absent) tagMatch) (by decide!),
   by decide!,
   (checkGameEnd_declares_higher_side.1 endedWorld zeroDraws
     (reachable_stuck endedWorld (reachable_run (Reachable.init DataFile.absent) tagMatch))
     (by decide!)).2,
   by decide!,
   (checkGameEnd_declares_higher_side.2.2 endedWorld
     (reachable_run (Reachable.init DataFile.absent) tagMatch) Winner.ai
     { player := 0, ai := 100 } (by decide!)).1⟩

end CANDi
